import Mathlib

/-!
# GitProcess: branch creation and branch-policy replication

A shallow embedding of `src/gitprocess/azuredevops.go` and `src/gitprocess/main.go`.

* Go structs become Lean structures with the same field names.
* Errors are the text of the Go `error` value; `(T, error)` results become
  `Except String T`, a lone `error` result becomes `Option String` (`none` is `nil`).
* The terminal, the environment, the HTTP service and the version-control library are
  collaborators: their answers are fields of an oracle structure, and what the program
  does to them is recorded, in order, in `Sys.trace`.
-/

namespace GitProcess

/-! ## Data model (`azuredevops.go`, lines 12-37) -/

structure AzureDevOpsConfig where
  Organization : String
  Project : String
  Repository : String
  PAT : String
deriving DecidableEq

structure PolicyType where
  ID : String
  Name : String
deriving DecidableEq

structure Scope where
  RefName : String
  MatchKind : String
  RepositoryID : String
deriving DecidableEq

/-- Go `map[string]interface{}`: the program never looks inside it, so every value is kept
as the text of its JSON encoding. -/
abbrev Settings := List (String × String)

structure BranchPolicy where
  ID : Int
  /-- Go field `Type`, a reserved word here. -/
  Type_ : PolicyType
  Settings : Settings
  IsEnabled : Bool
  IsBlocking : Bool
  Scope : List Scope
deriving DecidableEq

/-- Keys of the JSON object `encoding/json` writes for a `BranchPolicy`, from the struct tags
(lines 20-25): `id` carries `omitempty`, so it is left out when `ID` is `0`. -/
def BranchPolicy.jsonKeys (p : BranchPolicy) : List String :=
  (if p.ID = 0 then [] else ["id"]) ++ ["type", "settings", "isEnabled", "isBlocking", "scope"]

/-! ## Collaborators -/

/-- An `*http.Request` as the program builds it: method, URL, basic-auth pair, the
`Content-Type` header, and for a POST the value whose JSON encoding is the body. -/
structure Request where
  Method : String
  URL : String
  Username : String
  Password : String
  ContentType : String
  Body : Option BranchPolicy
deriving DecidableEq

structure Response where
  StatusCode : Nat
  Status : String
  Body : String
deriving DecidableEq

/-- The remote service together with the `net/http` and `encoding/json` calls made on it. -/
structure Remote where
  /-- Error of `http.NewRequest(method, url, _)`, if any. -/
  newRequest : String → String → Option String
  /-- Result of `client.Do(req)`, given the requests sent before it. -/
  roundTrip : List Request → Request → Except String Response
  /-- Result of decoding a body into `struct { ID string }`. -/
  decodeRepository : String → Except String String
  /-- Result of decoding a body into `struct { Value []BranchPolicy }`. -/
  decodePolicies : String → Except String (List BranchPolicy)

/-- What the program does, in order. -/
inductive Event where
  /-- Text written by `fmt.Print`, `fmt.Println` or `fmt.Printf`. -/
  | print (text : String)
  /-- Call of one of the program's functions, with its string arguments. -/
  | call (fn : String) (args : List String)
  /-- Call of `createBranchPolicy` with this policy. -/
  | create (config : AzureDevOpsConfig) (policy : BranchPolicy)
  /-- Call of `client.Do` with this request. -/
  | send (req : Request)
deriving DecidableEq

/-- State of a run: the lines of standard input not yet read, and the events so far. -/
structure Sys where
  stdin : List String
  trace : List Event
deriving DecidableEq

def Sys.log (s : Sys) (e : Event) : Sys :=
  { s with trace := s.trace ++ [e] }

/-- The request of a `send` event. -/
def Event.request? : Event → Option Request
  | .send r => some r
  | _ => none

/-- The policy `createBranchPolicy` was called with, for a `create` event. -/
def Event.policy? : Event → Option BranchPolicy
  | .create _ p => some p
  | _ => none

/-- The name of the function called, for a `call` or `create` event. -/
def Event.callee? : Event → Option String
  | .call fn _ => some fn
  | .create _ _ => some "createBranchPolicy"
  | _ => none

/-- The text of a `print` event. -/
def Event.text? : Event → Option String
  | .print t => some t
  | _ => none

/-- Requests sent, in order. -/
def sent (es : List Event) : List Request :=
  es.filterMap Event.request?

/-- Policies `createBranchPolicy` was called with, in call order. -/
def created (es : List Event) : List BranchPolicy :=
  es.filterMap Event.policy?

/-- Policies submitted: the bodies of the POST requests sent, in order. -/
def submitted (es : List Event) : List BranchPolicy :=
  (sent es).filterMap fun r => if r.Method = "POST" then r.Body else none

/-- Names of the program's functions called, in call order. -/
def calls (es : List Event) : List String :=
  es.filterMap Event.callee?

/-- Texts printed, in order. -/
def printed (es : List Event) : List String :=
  es.filterMap Event.text?

/-- Events of `s1` that came after those of `s0`. -/
def emitted (s0 s1 : Sys) : List Event :=
  s1.trace.drop s0.trace.length

/-! ## Strings (`strings.TrimSpace`, `strings.ToLower`) -/

/-- Go `unicode.IsSpace`: the Latin-1 spaces and the code points of category Z and
property `Pattern_White_Space`. -/
def isSpace (c : Char) : Bool :=
  c = '\t' || c = '\n' || c.val = 0x0b || c.val = 0x0c || c = '\r' || c = ' '
    || c.val = 0x85 || c.val = 0xa0 || c.val = 0x1680
    || (0x2000 ≤ c.val && c.val ≤ 0x200a)
    || c.val = 0x2028 || c.val = 0x2029 || c.val = 0x202f || c.val = 0x205f || c.val = 0x3000

def TrimSpace (s : String) : String :=
  String.mk ((s.data.dropWhile isSpace).reverse.dropWhile isSpace).reverse

/-- Go `unicode.ToLower` on one code point. ASCII and Latin-1 capitals are mapped as the
Unicode tables map them, and so are U+0130 and U+212A, the only code points outside ASCII
whose lower case is an ASCII letter. Every other code point is left as it is: its lower
case, when it has one, is again outside ASCII. -/
def toLowerRune (c : Char) : Char :=
  if 0x41 ≤ c.toNat ∧ c.toNat ≤ 0x5a then Char.ofNat (c.toNat + 32)
  else if (0xc0 ≤ c.toNat ∧ c.toNat ≤ 0xde) ∧ c.toNat ≠ 0xd7 then Char.ofNat (c.toNat + 32)
  else if c.toNat = 0x130 then 'i'
  else if c.toNat = 0x212a then 'k'
  else c

def ToLower (s : String) : String :=
  String.mk (s.data.map toLowerRune)

/-! ## Terminal input (`main.go`, lines 94-104) -/

/-- Lines 94-99. `scanner.Scan()` takes the next line of standard input; at end of input
`scanner.Text()` is empty. Standard input is the terminal, which hands over one line per
read, so the new scanner of each call starts at the next line typed. -/
def getInput (prompt : String) (s : Sys) : String × Sys :=
  let s := s.log (.call "getInput" [prompt])
  let s := s.log (.print prompt)
  match s.stdin with
  | [] => (TrimSpace "", s)
  | line :: rest => (TrimSpace line, { s with stdin := rest })

/-- Lines 101-104. -/
def getConfirmation (prompt : String) (s : Sys) : Bool × Sys :=
  let s := s.log (.call "getConfirmation" [prompt])
  let (response, s) := getInput prompt s
  (ToLower response == "y" || ToLower response == "yes", s)

/-! ## Policy replication (`azuredevops.go`) -/

/-- The statement repeated at lines 46-48, 50-52 and 54-56: a field that is empty is
replaced by the answer to a prompt. -/
def promptIfEmpty (value prompt : String) (s : Sys) : String × Sys :=
  if value = "" then getInput prompt s else (value, s)

/-- Lines 39-63. `env` is `os.Getenv`: an unset variable reads as the empty string. -/
def getAzureDevOpsConfig (env : String → String) (s : Sys) :
    Except String AzureDevOpsConfig × Sys :=
  let s := s.log (.call "getAzureDevOpsConfig" [])
  let organization := promptIfEmpty (env "AZDO_ORG") "Enter Azure DevOps Organization: " s
  let project := promptIfEmpty (env "AZDO_PROJECT") "Enter Azure DevOps Project: " organization.2
  let pat := promptIfEmpty (env "AZDO_PAT") "Enter Personal Access Token (PAT): " project.2
  let config : AzureDevOpsConfig :=
    { Organization := organization.1, Project := project.1, Repository := "", PAT := pat.1 }
  if config.Organization = "" ∨ config.Project = "" ∨ config.PAT = "" then
    (.error "missing required Azure DevOps configuration", pat.2)
  else
    (.ok config, pat.2)

/-- The part shared by the three HTTP functions: build the request, set the basic-auth pair
and the content type, and send it (lines 69-81, 112-124, 139-151). -/
def doRequest (rm : Remote) (config : AzureDevOpsConfig) (method url : String)
    (body : Option BranchPolicy) (s : Sys) : Except String Response × Sys :=
  match rm.newRequest method url with
  | some e => (.error e, s)
  | none =>
    let req : Request :=
      { Method := method, URL := url, Username := "", Password := config.PAT,
        ContentType := "application/json", Body := body }
    (rm.roundTrip (sent s.trace) req, s.log (.send req))

/-- The `fmt.Sprintf` of lines 66-67. -/
def policiesURL (config : AzureDevOpsConfig) (repositoryID branchName : String) : String :=
  "https://dev.azure.com/" ++ config.Organization ++ "/" ++ config.Project
    ++ "/_apis/policy/configurations?repositoryId=" ++ repositoryID
    ++ "&refName=refs/heads/" ++ branchName ++ "&api-version=7.1-preview.1"

/-- The `fmt.Sprintf` of lines 101-102. -/
def createURL (config : AzureDevOpsConfig) : String :=
  "https://dev.azure.com/" ++ config.Organization ++ "/" ++ config.Project
    ++ "/_apis/policy/configurations?api-version=7.1-preview.1"

/-- The `fmt.Sprintf` of lines 136-137. -/
def repositoryURL (config : AzureDevOpsConfig) (repositoryName : String) : String :=
  "https://dev.azure.com/" ++ config.Organization ++ "/" ++ config.Project
    ++ "/_apis/git/repositories/" ++ repositoryName ++ "?api-version=7.1-preview.1"

/-- Lines 65-98. -/
def getBranchPolicies (rm : Remote) (config : AzureDevOpsConfig)
    (repositoryID branchName : String) (s : Sys) : Except String (List BranchPolicy) × Sys :=
  let s := s.log (.call "getBranchPolicies" [repositoryID, branchName])
  let url := policiesURL config repositoryID branchName
  match doRequest rm config "GET" url none s with
  | (.error e, s) => (.error e, s)
  | (.ok resp, s) =>
    if resp.StatusCode ≠ 200 then
      (.error ("failed to get branch policies: " ++ resp.Status ++ " - " ++ resp.Body), s)
    else
      (rm.decodePolicies resp.Body, s)

/-- Lines 100-133. The policy is a copy of the caller's; `json.Marshal` cannot fail on a
value that `encoding/json` decoded, so its error branch (line 108) is not reached. -/
def createBranchPolicy (rm : Remote) (config : AzureDevOpsConfig) (policy : BranchPolicy)
    (s : Sys) : Option String × Sys :=
  let s := s.log (.create config policy)
  let url := createURL config
  let policy := { policy with ID := 0 }
  match doRequest rm config "POST" url (some policy) s with
  | (.error e, s) => (some e, s)
  | (.ok resp, s) =>
    if resp.StatusCode ≠ 200 ∧ resp.StatusCode ≠ 201 then
      (some ("failed to create branch policy: " ++ resp.Status ++ " - " ++ resp.Body), s)
    else
      (none, s)

/-- Lines 135-168. -/
def getRepositoryID (rm : Remote) (config : AzureDevOpsConfig) (repositoryName : String)
    (s : Sys) : Except String String × Sys :=
  let s := s.log (.call "getRepositoryID" [repositoryName])
  let url := repositoryURL config repositoryName
  match doRequest rm config "GET" url none s with
  | (.error e, s) => (.error e, s)
  | (.ok resp, s) =>
    if resp.StatusCode ≠ 200 then
      (.error ("failed to get repository: " ++ resp.Status ++ " - " ++ resp.Body), s)
    else
      (rm.decodeRepository resp.Body, s)

/-- Lines 197-200: every scope entry of the loop's copy gets the target reference name. The
copy shares its scope entries with the fetched policy only, each decoded policy having a
slice of its own, so no other policy of the list is changed. -/
def retarget (targetBranch : String) (policy : BranchPolicy) : BranchPolicy :=
  { policy with
    Scope := policy.Scope.map fun sc => { sc with RefName := "refs/heads/" ++ targetBranch } }

/-- Lines 196-209, the loop over the fetched policies. -/
def copyLoop (rm : Remote) (config : AzureDevOpsConfig) (targetBranch : String) :
    List BranchPolicy → Sys → Sys
  | [], s => s
  | policy :: rest, s =>
    let policy := retarget targetBranch policy
    match createBranchPolicy rm config policy s with
    | (some err, s) =>
      copyLoop rm config targetBranch rest
        (s.log (.print ("Warning: Failed to copy policy '" ++ policy.Type_.Name ++ "': "
          ++ err ++ "\n")))
    | (none, s) =>
      copyLoop rm config targetBranch rest
        (s.log (.print ("âœ“ Copied policy: " ++ policy.Type_.Name ++ "\n")))

/-- Lines 170-212. -/
def copyBranchPoliciesFromAzureDevOps (env : String → String) (rm : Remote)
    (repoName sourceBranch targetBranch : String) (s : Sys) : Option String × Sys :=
  let s := s.log (.call "copyBranchPoliciesFromAzureDevOps" [repoName, sourceBranch, targetBranch])
  match getAzureDevOpsConfig env s with
  | (.error err, s) => (some err, s)
  | (.ok config, s) =>
    match getRepositoryID rm config repoName s with
    | (.error err, s) => (some ("failed to get repository ID: " ++ err), s)
    | (.ok repositoryID, s) =>
      match getBranchPolicies rm config repositoryID sourceBranch s with
      | (.error err, s) => (some ("failed to get source branch policies: " ++ err), s)
      | (.ok sourcePolicies, s) =>
        if sourcePolicies.length = 0 then
          (none, s.log (.print ("No policies found on branch '" ++ sourceBranch ++ "'\n")))
        else
          let s := s.log (.print ("Found " ++ toString sourcePolicies.length
            ++ " policies on branch '" ++ sourceBranch ++ "'\n"))
          (none, copyLoop rm config targetBranch sourcePolicies s)

/-- Lines 220-222 of `main.go`. -/
def copyBranchPolicies (env : String → String) (rm : Remote)
    (repoName sourceBranch targetBranch : String) (s : Sys) : Option String × Sys :=
  let s := s.log (.call "copyBranchPolicies" [repoName, sourceBranch, targetBranch])
  copyBranchPoliciesFromAzureDevOps env rm repoName sourceBranch targetBranch s

/-! ## Version control (`main.go`) -/

/-- A `plumbing.Hash`, read as a number; `0` is `plumbing.ZeroHash`. -/
abbrev Hash := Nat

/-- A `*plumbing.Reference`: `Short` is what `ref.Name().Short()` returns, `Hash` what
`ref.Hash()` returns. -/
structure Reference where
  Short : String
  Hash : Hash
deriving DecidableEq

/-- An `*object.Commit`; only its `Hash` field is read. -/
structure Commit where
  Hash : Hash
deriving DecidableEq

structure CheckoutOptions where
  Branch : String
  Create : Bool
  Hash : Hash
deriving DecidableEq

/-- What `repo.Branches()` hands back when it succeeds: the references `ForEach` passes to its
callback, in order, and the error the iteration itself ends with, if any. -/
structure BranchIter where
  refs : List Reference
  err : Option String
deriving DecidableEq

/-- The version-control library, over repositories of type `R`. -/
structure Git (R : Type) where
  /-- Result of `git.PlainClone(path, false, &git.CloneOptions{URL: url})`. -/
  plainClone : String → String → Except String R
  /-- Error of `repo.Worktree()`, if any. -/
  worktree : R → Option String
  /-- Result of `repo.Reference(name, true)`. -/
  reference : R → String → Except String Reference
  /-- Result of `repo.Head()`. -/
  head : R → Except String Reference
  /-- Error of `worktree.Checkout(opts)`, if any, and the repository afterwards. -/
  checkout : R → CheckoutOptions → Option String × R
  /-- Result of `repo.Branches()`. -/
  branches : R → Except String BranchIter
  /-- Result of `repo.CommitObject(hash)`. -/
  commitObject : R → Hash → Except String Commit
  /-- Result of `c.IsAncestor(other)`. -/
  isAncestor : R → Commit → Commit → Except String Bool

/-- Lines 106-114. -/
def cloneRepository {R : Type} (g : Git R) (url name : String) : Except String R :=
  match g.plainClone name url with
  | .error err => .error err
  | .ok repo => .ok repo

/-- Lines 116-147. -/
def switchToBranch {R : Type} (g : Git R) (repo : R) (branchName : String) :
    Option String × R :=
  match g.worktree repo with
  | some err => (some err, repo)
  | none =>
    let branchRef := "refs/remotes/origin/" ++ branchName
    match g.reference repo branchRef with
    | .error _ => (some ("branch '" ++ branchName ++ "' not found"), repo)
    | .ok ref =>
      let localBranchRef := "refs/heads/" ++ branchName
      match g.checkout repo { Branch := localBranchRef, Create := true, Hash := ref.Hash } with
      | (none, repo) => (none, repo)
      | (some _, repo) =>
        match g.checkout repo { Branch := localBranchRef, Create := false, Hash := 0 } with
        | (some err, repo) => (some err, repo)
        | (none, repo) => (none, repo)

/-- Lines 169-192: the callback of `branches.ForEach`, run on one reference; it always
returns `nil`, so what is left of it is the list of names. -/
def visitBranch {R : Type} (g : Git R) (repo : R) (baseBranch : String) (baseCommit : Commit)
    (unmergedBranches : List String) (ref : Reference) : List String :=
  let branchName := ref.Short
  if branchName = baseBranch ∨ branchName = "main" ∨ branchName = "master" then
    unmergedBranches
  else
    match g.commitObject repo ref.Hash with
    | .error _ => unmergedBranches
    | .ok branchCommit =>
      match g.isAncestor repo branchCommit baseCommit with
      | .error _ => unmergedBranches
      | .ok isAncestor =>
        if !isAncestor ∧ branchCommit.Hash ≠ baseCommit.Hash then
          unmergedBranches ++ [branchName]
        else
          unmergedBranches

/-- Lines 149-195. The Go function returns the pair `(unmergedBranches, err)`; the list is
`nil` on the three early returns. -/
def getUnmergedBranches {R : Type} (g : Git R) (repo : R) (baseBranch : String) :
    List String × Option String :=
  match g.branches repo with
  | .error err => ([], some err)
  | .ok branches =>
    match g.reference repo ("refs/heads/" ++ baseBranch) with
    | .error err => ([], some err)
    | .ok baseRef =>
      match g.commitObject repo baseRef.Hash with
      | .error err => ([], some err)
      | .ok baseCommit =>
        (branches.refs.foldl (visitBranch g repo baseBranch baseCommit) [], branches.err)

/-- Lines 197-218. -/
def createBranch {R : Type} (g : Git R) (repo : R) (branchName : String) :
    Option String × R :=
  match g.worktree repo with
  | some err => (some err, repo)
  | none =>
    match g.head repo with
    | .error err => (some err, repo)
    | .ok head =>
      g.checkout repo { Branch := "refs/heads/" ++ branchName, Create := true, Hash := head.Hash }

/-- Everything outside the program that a run depends on, standard input apart. -/
structure World (R : Type) where
  env : String → String
  git : Git R
  remote : Remote

/-- Lines 69-91 of `main`: what follows the confirmation block, reached from both of its
exits. -/
def mainFromBranchName {R : Type} (w : World R) (repo : R) (repoName : String) (s : Sys) : Sys :=
  let (newBranchName, s) := getInput "\nEnter the new branch name: " s
  if newBranchName = "" then
    s.log (.print "Branch name cannot be empty\n")
  else
    let s := s.log (.print ("\nCreating new branch '" ++ newBranchName ++ "'...\n"))
    let s := s.log (.call "createBranch" [newBranchName])
    match createBranch w.git repo newBranchName with
    | (some err, _) => s.log (.print ("Error creating branch: " ++ err ++ "\n"))
    | (none, _) =>
      let s := s.log (.print "\nCopying branch policies from develop...\n")
      let (err, s) := copyBranchPolicies w.env w.remote repoName "develop" newBranchName s
      let s := match err with
        | some err => s.log (.print ("Warning: Could not copy branch policies: " ++ err ++ "\n"))
        | none => s
      s.log (.print ("\n✓ Successfully created branch '" ++ newBranchName
        ++ "' with policies copied from develop\n"))

/-- Lines 13-92. Functions that only query or change the repository keep no `Sys`; `main`
logs the call before making it. -/
def main {R : Type} (w : World R) (s : Sys) : Sys :=
  let s := s.log (.print "GitProcess - Azure DevOps Branch Management Tool\n")
  let s := s.log (.print "===============================================\n")
  let (repoName, s) := getInput "Enter the repository name (e.g., LOM_ABC): " s
  if repoName = "" then
    s.log (.print "Repository name cannot be empty\n")
  else
    let (repoURL, s) := getInput "Enter the repository URL: " s
    if repoURL = "" then
      s.log (.print "Repository URL cannot be empty\n")
    else
      let s := s.log (.print ("\nCloning repository '" ++ repoName ++ "'...\n"))
      let s := s.log (.call "cloneRepository" [repoURL, repoName])
      match cloneRepository w.git repoURL repoName with
      | .error err => s.log (.print ("Error cloning repository: " ++ err ++ "\n"))
      | .ok repo =>
        let s := s.log (.print "\nSwitching to develop branch...\n")
        let s := s.log (.call "switchToBranch" ["develop"])
        match switchToBranch w.git repo "develop" with
        | (some err, _) => s.log (.print ("Error switching to develop branch: " ++ err ++ "\n"))
        | (none, repo) =>
          let s := s.log (.print "\nChecking for unmerged branches...\n")
          let s := s.log (.call "getUnmergedBranches" ["develop"])
          match getUnmergedBranches w.git repo "develop" with
          | (_, some err) => s.log (.print ("Error checking unmerged branches: " ++ err ++ "\n"))
          | (unmergedBranches, none) =>
            if unmergedBranches.length > 0 then
              let s := s.log (.print "\nFound unmerged branches:\n")
              let s := unmergedBranches.foldl
                (fun s branch => s.log (.print ("  - " ++ branch ++ "\n"))) s
              let (continueProcess, s) :=
                getConfirmation "\nDo you want to continue with creating a new branch? (y/n): " s
              if !continueProcess then
                s.log (.print "Process stopped by user.\n")
              else
                mainFromBranchName w repo repoName s
            else
              mainFromBranchName w repo repoName s

/-- State `s1` continues the run of `s0`, and every event added satisfies `Q`. -/
def Extends (Q : Event → Prop) (s0 s1 : Sys) : Prop :=
  ∃ evs, s1.trace = s0.trace ++ evs ∧ ∀ e ∈ evs, Q e

/-! ## Concrete runs and the spec's own notions

In the main run two policies scoped to `refs/heads/develop` are copied to `feature/x`; the
service refuses the first creation and accepts the second. -/

section Demo

def demoEnv (name : String) : String :=
  if name = "AZDO_ORG" then "contoso"
  else if name = "AZDO_PROJECT" then "web"
  else if name = "AZDO_PAT" then "s3cret"
  else ""

def demoReviewers : BranchPolicy :=
  { ID := 17, Type_ := { ID := "fa4e907d", Name := "Minimum number of reviewers" },
    Settings := [("minimumApproverCount", "2")], IsEnabled := true, IsBlocking := true,
    Scope := [{ RefName := "refs/heads/develop", MatchKind := "Exact", RepositoryID := "r-1" }] }

def demoBuild : BranchPolicy :=
  { ID := 18, Type_ := { ID := "0609b952", Name := "Build" },
    Settings := [("buildDefinitionId", "4")], IsEnabled := true, IsBlocking := false,
    Scope := [{ RefName := "refs/heads/develop", MatchKind := "Exact", RepositoryID := "r-1" },
      { RefName := "refs/heads/release", MatchKind := "Prefix", RepositoryID := "r-1" }] }

def demoRemote : Remote :=
  { newRequest := fun _ _ => none
    roundTrip := fun earlier req =>
      if req.Method = "GET" then .ok { StatusCode := 200, Status := "200 OK", Body := "" }
      else if earlier.length = 2 then
        .ok { StatusCode := 403, Status := "403 Forbidden", Body := "denied" }
      else .ok { StatusCode := 201, Status := "201 Created", Body := "" }
    decodeRepository := fun _ => .ok "r-1"
    decodePolicies := fun _ => .ok [demoReviewers, demoBuild] }

def demoStart : Sys :=
  { stdin := [], trace := [] }

def demoConfig : AzureDevOpsConfig :=
  { Organization := "contoso", Project := "web", Repository := "", PAT := "s3cret" }

/-- A service whose one policy on the source branch has no scope entry. -/
def unscopedRemote : Remote :=
  { demoRemote with
    decodePolicies := fun _ => .ok [{ demoReviewers with Scope := [] }] }

/-- A service that does not know the repository. -/
def notFoundRemote : Remote :=
  { demoRemote with
    roundTrip := fun _ _ =>
      .ok { StatusCode := 404, Status := "404 Not Found", Body := "no such repository" } }

/-- The spec's frame for a copy: everything of the source policy but its identifier and the
reference names of its scope entries, the scope entries taken in order. -/
def SameExceptIdAndRefNames (source copy : BranchPolicy) : Prop :=
  copy.Type_.ID = source.Type_.ID ∧ copy.Type_.Name = source.Type_.Name ∧
  copy.Settings = source.Settings ∧
  copy.IsEnabled = source.IsEnabled ∧ copy.IsBlocking = source.IsBlocking ∧
  copy.Scope.length = source.Scope.length ∧
  copy.Scope.map (fun sc => (sc.MatchKind, sc.RepositoryID))
    = source.Scope.map (fun sc => (sc.MatchKind, sc.RepositoryID))

/-- The spec's resolution of one configuration field: the value of its environment variable
when that is set, otherwise the answer typed at one prompt, surrounding white space removed.
The second component is what is left of the lines typed. -/
def resolveField (envValue : String) (answers : List String) : String × List String :=
  if envValue = "" then (TrimSpace (answers.headD ""), answers.tail) else (envValue, answers)

/-- An environment that sets the three variables under the names the spec gives them. -/
def specNamedEnv (name : String) : String :=
  if name = "ORG" then "contoso"
  else if name = "PROJECT" then "web"
  else if name = "ACCESS_TOKEN" then "s3cret"
  else ""

def typedStart : Sys :=
  { stdin := ["fabrikam", "  mobile ", "t0ken"], trace := [] }

/-- An environment with the organization only; the credential is neither set nor typed. -/
def orgOnlyEnv (name : String) : String :=
  if name = "AZDO_ORG" then "contoso" else ""

def blankStart : Sys :=
  { stdin := ["web", "  \t "], trace := [] }

/-- A repository, always in the same state: `develop` at commit 1, `main` at commit 2 (a
hotfix that `develop` does not contain), `feature/a` at commit 3 (not merged), `feature/old`
at commit 4 (merged into `develop`), and `feature/lost`, whose commit 5 cannot be read. -/
def demoGit : Git Unit :=
  { plainClone := fun _ _ => .ok ()
    worktree := fun _ => none
    reference := fun _ name =>
      if name = "refs/heads/develop" ∨ name = "refs/remotes/origin/develop" then
        .ok { Short := "develop", Hash := 1 }
      else .error "reference not found"
    head := fun _ => .ok { Short := "develop", Hash := 1 }
    checkout := fun repo _ => (none, repo)
    branches := fun _ => .ok
      { refs := [{ Short := "develop", Hash := 1 }, { Short := "main", Hash := 2 },
          { Short := "feature/a", Hash := 3 }, { Short := "feature/old", Hash := 4 },
          { Short := "feature/lost", Hash := 5 }],
        err := none }
    commitObject := fun _ hash =>
      if hash = 5 then .error "object not found" else .ok { Hash := hash }
    isAncestor := fun _ c other => .ok (c.Hash = other.Hash ∨ c.Hash = 4) }

/-- The responses that are `y` or `yes` up to letter case. -/
def affirmative : List String :=
  ["y", "Y", "yes", "yeS", "yEs", "yES", "Yes", "YeS", "YEs", "YES"]

def demoWorld : World Unit :=
  { env := demoEnv, git := demoGit, remote := demoRemote }

/-- A run in which the user declines to continue. -/
def decliningStart : Sys :=
  { stdin := ["LOM_ABC", "https://dev.azure.com/contoso/web/_git/LOM_ABC", " n "], trace := [] }

end Demo

/-! ## The trace: projections and extension -/

section Trace

theorem sent_append (xs ys : List Event) : sent (xs ++ ys) = sent xs ++ sent ys :=
  List.filterMap_append ..

theorem created_append (xs ys : List Event) :
    created (xs ++ ys) = created xs ++ created ys :=
  List.filterMap_append ..

theorem submitted_append (xs ys : List Event) :
    submitted (xs ++ ys) = submitted xs ++ submitted ys := by
  simp [submitted, sent_append]

theorem mem_sent {r : Request} {es : List Event} : r ∈ sent es ↔ Event.send r ∈ es := by
  constructor
  · intro h
    obtain ⟨e, he, hr⟩ := List.mem_filterMap.mp h
    cases e <;> simp [Event.request?] at hr
    subst hr
    exact he
  · intro h
    exact List.mem_filterMap.mpr ⟨_, h, rfl⟩

theorem mem_printed {t : String} {es : List Event} : t ∈ printed es ↔ Event.print t ∈ es := by
  constructor
  · intro h
    obtain ⟨e, he, hr⟩ := List.mem_filterMap.mp h
    cases e <;> simp [Event.text?] at hr
    subst hr
    exact he
  · intro h
    exact List.mem_filterMap.mpr ⟨_, h, rfl⟩

theorem mem_submitted {p : BranchPolicy} {es : List Event} :
    p ∈ submitted es ↔ ∃ r, Event.send r ∈ es ∧ r.Method = "POST" ∧ r.Body = some p := by
  constructor
  · intro h
    obtain ⟨r, hr, hp⟩ := List.mem_filterMap.mp h
    by_cases hm : r.Method = "POST"
    · rw [if_pos hm] at hp
      exact ⟨r, mem_sent.mp hr, hm, hp⟩
    · rw [if_neg hm] at hp
      cases hp
  · rintro ⟨r, hr, hm, hp⟩
    exact List.mem_filterMap.mpr ⟨r, mem_sent.mpr hr, by rw [if_pos hm]; exact hp⟩

theorem Extends.refl (Q : Event → Prop) (s : Sys) : Extends Q s s :=
  ⟨[], by simp, by simp⟩

theorem Extends.trans {Q : Event → Prop} {s0 s1 s2 : Sys}
    (h01 : Extends Q s0 s1) (h12 : Extends Q s1 s2) : Extends Q s0 s2 := by
  obtain ⟨a, ha, hqa⟩ := h01
  obtain ⟨b, hb, hqb⟩ := h12
  refine ⟨a ++ b, by rw [hb, ha, List.append_assoc], ?_⟩
  intro e he
  rcases List.mem_append.mp he with h | h
  · exact hqa e h
  · exact hqb e h

theorem Extends.log {Q : Event → Prop} {s0 s1 : Sys} (h : Extends Q s0 s1) {e : Event}
    (he : Q e) : Extends Q s0 (s1.log e) :=
  h.trans ⟨[e], rfl, by simpa using he⟩

theorem Extends.trace_eq {Q : Event → Prop} {s0 s1 : Sys} (h : Extends Q s0 s1) :
    s1.trace = s0.trace ++ emitted s0 s1 := by
  obtain ⟨a, ha, _⟩ := h
  simp [emitted, ha]

theorem Extends.emitted {Q : Event → Prop} {s0 s1 : Sys} (h : Extends Q s0 s1) :
    ∀ e ∈ emitted s0 s1, Q e := by
  obtain ⟨a, ha, hq⟩ := h
  simpa [GitProcess.emitted, ha] using hq

theorem Extends.mono {Q Q2 : Event → Prop} {s0 s1 : Sys} (h : Extends Q s0 s1)
    (hq : ∀ e, Q e → Q2 e) : Extends Q2 s0 s1 := by
  obtain ⟨a, ha, hqa⟩ := h
  exact ⟨a, ha, fun e he => hq e (hqa e he)⟩

theorem emitted_trans {Q : Event → Prop} {s0 s1 s2 : Sys}
    (h01 : Extends Q s0 s1) (h12 : Extends Q s1 s2) :
    emitted s0 s2 = emitted s0 s1 ++ emitted s1 s2 := by
  have h02 := (h01.trans h12).trace_eq
  rw [h12.trace_eq, h01.trace_eq, List.append_assoc] at h02
  exact (List.append_cancel_left h02).symm

theorem emitted_self (s : Sys) : emitted s s = [] := by
  simp [emitted]

theorem emitted_log {Q : Event → Prop} {s0 s1 : Sys} (h : Extends Q s0 s1) (e : Event) :
    emitted s0 (s1.log e) = emitted s0 s1 ++ [e] := by
  obtain ⟨a, ha, _⟩ := h
  simp [emitted, Sys.log, ha]

end Trace

/-! ## What each function adds to the trace -/

section Steps

variable {Q : Event → Prop}

theorem getInput_trace (prompt : String) (s : Sys) :
    (getInput prompt s).2.trace
      = s.trace ++ [Event.call "getInput" [prompt], Event.print prompt] := by
  unfold getInput
  cases h : s.stdin <;> simp [Sys.log, h]

theorem getInput_stdin (prompt : String) (s : Sys) :
    (getInput prompt s).2.stdin = s.stdin.tail := by
  unfold getInput
  cases h : s.stdin <;> simp [Sys.log, h]

theorem getInput_value (prompt : String) (s : Sys) :
    (getInput prompt s).1 = TrimSpace (s.stdin.headD "") := by
  unfold getInput
  cases h : s.stdin <;> simp [Sys.log, h]

theorem getInput_extends (prompt : String) (s : Sys)
    (hc : Q (.call "getInput" [prompt])) (hp : Q (.print prompt)) :
    Extends Q s (getInput prompt s).2 := by
  refine ⟨_, getInput_trace prompt s, ?_⟩
  intro e he
  simp at he
  rcases he with rfl | rfl
  · exact hc
  · exact hp

theorem promptIfEmpty_extends (value prompt : String) (s : Sys)
    (hc : Q (.call "getInput" [prompt])) (hp : value = "" → Q (.print prompt)) :
    Extends Q s (promptIfEmpty value prompt s).2 := by
  unfold promptIfEmpty
  split_ifs with h
  · exact getInput_extends prompt s hc (hp h)
  · exact Extends.refl Q s

theorem promptIfEmpty_value (value prompt : String) (s : Sys) :
    (promptIfEmpty value prompt s).1
      = if value = "" then TrimSpace (s.stdin.headD "") else value := by
  unfold promptIfEmpty
  split_ifs
  · exact getInput_value prompt s
  · rfl

theorem promptIfEmpty_stdin (value prompt : String) (s : Sys) :
    (promptIfEmpty value prompt s).2.stdin = if value = "" then s.stdin.tail else s.stdin := by
  unfold promptIfEmpty
  split_ifs
  · exact getInput_stdin prompt s
  · rfl

theorem getAzureDevOpsConfig_state (env : String → String) (s : Sys) :
    (getAzureDevOpsConfig env s).2
      = (promptIfEmpty (env "AZDO_PAT") "Enter Personal Access Token (PAT): "
          (promptIfEmpty (env "AZDO_PROJECT") "Enter Azure DevOps Project: "
            (promptIfEmpty (env "AZDO_ORG") "Enter Azure DevOps Organization: "
              (s.log (.call "getAzureDevOpsConfig" []))).2).2).2 := by
  unfold getAzureDevOpsConfig
  simp only []
  split_ifs <;> rfl

/-- The environment decides which prompts `getAzureDevOpsConfig` may print. -/
theorem getAzureDevOpsConfig_extends_of_env (env : String → String) (s : Sys)
    (hc0 : Q (.call "getAzureDevOpsConfig" []))
    (hc : ∀ p, Q (.call "getInput" [p]))
    (horg : env "AZDO_ORG" = "" → Q (.print "Enter Azure DevOps Organization: "))
    (hproject : env "AZDO_PROJECT" = "" → Q (.print "Enter Azure DevOps Project: "))
    (hpat : env "AZDO_PAT" = "" → Q (.print "Enter Personal Access Token (PAT): ")) :
    Extends Q s (getAzureDevOpsConfig env s).2 := by
  rw [getAzureDevOpsConfig_state]
  exact ((((Extends.refl Q s).log hc0).trans (promptIfEmpty_extends _ _ _ (hc _) horg)).trans
    (promptIfEmpty_extends _ _ _ (hc _) hproject)).trans (promptIfEmpty_extends _ _ _ (hc _) hpat)

theorem getAzureDevOpsConfig_extends (env : String → String) (s : Sys)
    (hc0 : Q (.call "getAzureDevOpsConfig" []))
    (hc : ∀ p, Q (.call "getInput" [p])) (hp : ∀ t, Q (.print t)) :
    Extends Q s (getAzureDevOpsConfig env s).2 :=
  getAzureDevOpsConfig_extends_of_env env s hc0 hc (fun _ => hp _) (fun _ => hp _)
    (fun _ => hp _)

theorem doRequest_extends (rm : Remote) (config : AzureDevOpsConfig) (method url : String)
    (body : Option BranchPolicy) (s : Sys)
    (hs : ∀ r : Request, r.Method = method → r.URL = url → r.Body = body → Q (.send r)) :
    Extends Q s (doRequest rm config method url body s).2 := by
  unfold doRequest
  split
  · exact Extends.refl Q s
  · exact (Extends.refl Q s).log (hs _ rfl rfl rfl)

theorem getRepositoryID_extends (rm : Remote) (config : AzureDevOpsConfig)
    (repositoryName : String) (s : Sys)
    (hc : Q (.call "getRepositoryID" [repositoryName]))
    (hs : ∀ r : Request, r.Method = "GET" → r.URL = repositoryURL config repositoryName →
      r.Body = none → Q (.send r)) :
    Extends Q s (getRepositoryID rm config repositoryName s).2 := by
  have h := ((Extends.refl Q s).log hc).trans
    (doRequest_extends rm config "GET" (repositoryURL config repositoryName) none _ hs)
  unfold getRepositoryID
  simp only []
  split
  · next heq => rw [heq] at h; exact h
  · next heq =>
    rw [heq] at h
    split_ifs <;> exact h

theorem getBranchPolicies_extends (rm : Remote) (config : AzureDevOpsConfig)
    (repositoryID branchName : String) (s : Sys)
    (hc : Q (.call "getBranchPolicies" [repositoryID, branchName]))
    (hs : ∀ r : Request, r.Method = "GET" → r.URL = policiesURL config repositoryID branchName →
      r.Body = none → Q (.send r)) :
    Extends Q s (getBranchPolicies rm config repositoryID branchName s).2 := by
  have h := ((Extends.refl Q s).log hc).trans
    (doRequest_extends rm config "GET" (policiesURL config repositoryID branchName) none _ hs)
  unfold getBranchPolicies
  simp only []
  split
  · next heq => rw [heq] at h; exact h
  · next heq =>
    rw [heq] at h
    split_ifs <;> exact h

theorem createBranchPolicy_extends (rm : Remote) (config : AzureDevOpsConfig)
    (policy : BranchPolicy) (s : Sys)
    (hc : Q (.create config policy))
    (hs : ∀ r : Request, r.Method = "POST" → r.URL = createURL config →
      r.Body = some { policy with ID := 0 } → Q (.send r)) :
    Extends Q s (createBranchPolicy rm config policy s).2 := by
  have h := ((Extends.refl Q s).log hc).trans
    (doRequest_extends rm config "POST" (createURL config) (some { policy with ID := 0 }) _ hs)
  unfold createBranchPolicy
  simp only []
  split
  · next heq => rw [heq] at h; exact h
  · next heq =>
    rw [heq] at h
    split_ifs <;> exact h

theorem copyLoop_extends (rm : Remote) (config : AzureDevOpsConfig) (targetBranch : String)
    (policies : List BranchPolicy) (s : Sys)
    (hc : ∀ p ∈ policies, Q (.create config (retarget targetBranch p)))
    (hs : ∀ p ∈ policies, ∀ r : Request, r.Method = "POST" → r.URL = createURL config →
      r.Body = some { retarget targetBranch p with ID := 0 } → Q (.send r))
    (hp : ∀ t, Q (.print t)) :
    Extends Q s (copyLoop rm config targetBranch policies s) := by
  induction policies generalizing s with
  | nil => exact Extends.refl Q s
  | cons p ps ih =>
    have h1 := createBranchPolicy_extends rm config (retarget targetBranch p) s
      (hc p (List.mem_cons_self _ _)) (hs p (List.mem_cons_self _ _))
    have hc2 : ∀ q ∈ ps, Q (.create config (retarget targetBranch q)) :=
      fun q hq => hc q (List.mem_cons_of_mem _ hq)
    have hs2 : ∀ q ∈ ps, ∀ r : Request, r.Method = "POST" → r.URL = createURL config →
        r.Body = some { retarget targetBranch q with ID := 0 } → Q (.send r) :=
      fun q hq => hs q (List.mem_cons_of_mem _ hq)
    unfold copyLoop
    simp only []
    split
    · next heq =>
      rw [heq] at h1
      exact (h1.log (hp _)).trans (ih _ hc2 hs2)
    · next heq =>
      rw [heq] at h1
      exact (h1.log (hp _)).trans (ih _ hc2 hs2)

theorem copyBranchPoliciesFromAzureDevOps_extends (env : String → String) (rm : Remote)
    (repoName sourceBranch targetBranch : String) (s : Sys)
    (hcall : ∀ fn args, Q (.call fn args)) (hp : ∀ t, Q (.print t))
    (hget : ∀ r : Request, r.Method = "GET" → r.Body = none → Q (.send r))
    (hc : ∀ c p, Q (.create c (retarget targetBranch p)))
    (hpost : ∀ (p : BranchPolicy) (r : Request), r.Method = "POST" →
      r.Body = some { retarget targetBranch p with ID := 0 } → Q (.send r)) :
    Extends Q s
      (copyBranchPoliciesFromAzureDevOps env rm repoName sourceBranch targetBranch s).2 := by
  have h0 : Extends Q s (s.log (.call "copyBranchPoliciesFromAzureDevOps"
      [repoName, sourceBranch, targetBranch])) := (Extends.refl Q s).log (hcall _ _)
  have h1 := h0.trans (getAzureDevOpsConfig_extends env _ (hcall _ _) (fun _ => hcall _ _) hp)
  unfold copyBranchPoliciesFromAzureDevOps
  simp only []
  split
  · next heq => rw [heq] at h1; exact h1
  · next config s1 heq =>
    rw [heq] at h1
    have h2 := h1.trans (getRepositoryID_extends rm config repoName s1 (hcall _ _)
      (fun r hm _ hb => hget r hm hb))
    split
    · next heq2 => rw [heq2] at h2; exact h2
    · next repositoryID s2 heq2 =>
      rw [heq2] at h2
      have h3 := h2.trans (getBranchPolicies_extends rm config repositoryID sourceBranch s2
        (hcall _ _) (fun r hm _ hb => hget r hm hb))
      split
      · next heq3 => rw [heq3] at h3; exact h3
      · next sourcePolicies s3 heq3 =>
        rw [heq3] at h3
        split_ifs
        · exact h3.log (hp _)
        · exact (h3.log (hp _)).trans (copyLoop_extends rm config targetBranch sourcePolicies _
            (fun p _ => hc _ p) (fun p _ r hm _ hb => hpost p r hm hb) hp)

/-- What the function comes to when configuration, lookup and fetch succeed. -/
theorem copyBranchPoliciesFromAzureDevOps_of_fetched (env : String → String) (rm : Remote)
    (repoName sourceBranch targetBranch : String) (s s1 s2 s3 : Sys)
    (config : AzureDevOpsConfig) (repositoryID : String) (sourcePolicies : List BranchPolicy)
    (hconfig : getAzureDevOpsConfig env (s.log (.call "copyBranchPoliciesFromAzureDevOps"
      [repoName, sourceBranch, targetBranch])) = (.ok config, s1))
    (hrepo : getRepositoryID rm config repoName s1 = (.ok repositoryID, s2))
    (hfetch : getBranchPolicies rm config repositoryID sourceBranch s2
      = (.ok sourcePolicies, s3)) :
    copyBranchPoliciesFromAzureDevOps env rm repoName sourceBranch targetBranch s
      = (none, copyLoop rm config targetBranch sourcePolicies
          (s3.log (.print (if sourcePolicies.length = 0
            then "No policies found on branch '" ++ sourceBranch ++ "'\n"
            else "Found " ++ toString sourcePolicies.length ++ " policies on branch '"
              ++ sourceBranch ++ "'\n")))) := by
  unfold copyBranchPoliciesFromAzureDevOps
  simp only [hconfig, hrepo, hfetch]
  split_ifs with h
  · have : sourcePolicies = [] := List.length_eq_zero.mp h
    subst this
    rfl
  · rfl

/-- The states between the three steps before the loop continue one another, and nothing
is created or posted on the way. -/
theorem fetched_extends (env : String → String) (rm : Remote)
    (repoName sourceBranch targetBranch : String) (s s1 s2 s3 : Sys)
    (config : AzureDevOpsConfig) (repositoryID : String) (sourcePolicies : List BranchPolicy)
    (hconfig : getAzureDevOpsConfig env (s.log (.call "copyBranchPoliciesFromAzureDevOps"
      [repoName, sourceBranch, targetBranch])) = (.ok config, s1))
    (hrepo : getRepositoryID rm config repoName s1 = (.ok repositoryID, s2))
    (hfetch : getBranchPolicies rm config repositoryID sourceBranch s2
      = (.ok sourcePolicies, s3))
    (hcall : ∀ fn args, Q (.call fn args)) (hp : ∀ t, Q (.print t))
    (hget : ∀ r : Request, r.Method = "GET" → r.Body = none → Q (.send r)) :
    Extends Q s s3 := by
  have h1 := ((Extends.refl Q s).log (hcall "copyBranchPoliciesFromAzureDevOps"
    [repoName, sourceBranch, targetBranch])).trans
    (getAzureDevOpsConfig_extends env _ (hcall _ _) (fun _ => hcall _ _) hp)
  rw [hconfig] at h1
  have h2 := h1.trans (getRepositoryID_extends rm config repoName s1 (hcall _ _)
    (fun r hm _ hb => hget r hm hb))
  rw [hrepo] at h2
  have h3 := h2.trans (getBranchPolicies_extends rm config repositoryID sourceBranch s2
    (hcall _ _) (fun r hm _ hb => hget r hm hb))
  rw [hfetch] at h3
  exact h3

/-- A run that fetched `sourcePolicies`: only these are created and posted. -/
theorem fetched_run_extends (env : String → String) (rm : Remote)
    (repoName sourceBranch targetBranch : String) (s s1 s2 s3 : Sys)
    (config : AzureDevOpsConfig) (repositoryID : String) (sourcePolicies : List BranchPolicy)
    (hconfig : getAzureDevOpsConfig env (s.log (.call "copyBranchPoliciesFromAzureDevOps"
      [repoName, sourceBranch, targetBranch])) = (.ok config, s1))
    (hrepo : getRepositoryID rm config repoName s1 = (.ok repositoryID, s2))
    (hfetch : getBranchPolicies rm config repositoryID sourceBranch s2
      = (.ok sourcePolicies, s3))
    (hcall : ∀ fn args, Q (.call fn args)) (hp : ∀ t, Q (.print t))
    (hget : ∀ r : Request, r.Method = "GET" → r.Body = none → Q (.send r))
    (hc : ∀ q ∈ sourcePolicies, Q (.create config (retarget targetBranch q)))
    (hpost : ∀ q ∈ sourcePolicies, ∀ r : Request, r.Method = "POST" →
      r.URL = createURL config →
      r.Body = some { retarget targetBranch q with ID := 0 } → Q (.send r)) :
    Extends Q s
      (copyBranchPoliciesFromAzureDevOps env rm repoName sourceBranch targetBranch s).2 := by
  rw [copyBranchPoliciesFromAzureDevOps_of_fetched env rm repoName sourceBranch targetBranch
    s s1 s2 s3 config repositoryID sourcePolicies hconfig hrepo hfetch]
  have h3 : Extends Q s s3 :=
    fetched_extends env rm repoName sourceBranch targetBranch s s1 s2 s3 config repositoryID
      sourcePolicies hconfig hrepo hfetch hcall hp hget
  exact (h3.log (hp _)).trans (copyLoop_extends rm config targetBranch sourcePolicies _ hc hpost hp)

/-- In a run that fetched `sourcePolicies`, each policy submitted is one of them, retargeted
and with its identifier cleared. -/
theorem submitted_of_fetched (env : String → String) (rm : Remote)
    (repoName sourceBranch targetBranch : String) (s s1 s2 s3 : Sys)
    (config : AzureDevOpsConfig) (repositoryID : String) (sourcePolicies : List BranchPolicy)
    (hconfig : getAzureDevOpsConfig env (s.log (.call "copyBranchPoliciesFromAzureDevOps"
      [repoName, sourceBranch, targetBranch])) = (.ok config, s1))
    (hrepo : getRepositoryID rm config repoName s1 = (.ok repositoryID, s2))
    (hfetch : getBranchPolicies rm config repositoryID sourceBranch s2
      = (.ok sourcePolicies, s3)) :
    ∀ p ∈ submitted (emitted s
        (copyBranchPoliciesFromAzureDevOps env rm repoName sourceBranch targetBranch s).2),
      ∃ q ∈ sourcePolicies, p = { retarget targetBranch q with ID := 0 } := by
  have h := fetched_run_extends env rm repoName sourceBranch targetBranch s s1 s2 s3 config
    repositoryID sourcePolicies hconfig hrepo hfetch
    (Q := fun e => ∀ r, e = .send r → r.Method = "POST" → ∀ p, r.Body = some p →
      ∃ q ∈ sourcePolicies, p = { retarget targetBranch q with ID := 0 })
    (fun _ _ _ h => (nomatch h)) (fun _ _ h => (nomatch h))
    (fun r _ hb r2 h _ p hp => by
      cases h
      rw [hb] at hp
      cases hp)
    (fun _ _ _ h => (nomatch h))
    (fun q hq r _ _ hb r2 h _ p hp => by
      cases h
      rw [hb] at hp
      cases hp
      exact ⟨q, hq, rfl⟩)
  intro p hp
  obtain ⟨r, hr, hm, hb⟩ := mem_submitted.mp hp
  exact h.emitted _ hr r rfl hm p hb

theorem doRequest_emitted (rm : Remote) (config : AzureDevOpsConfig) (method url : String)
    (body : Option BranchPolicy) (s : Sys) :
    emitted s (doRequest rm config method url body s).2 = [] ∨
      ∃ r : Request, emitted s (doRequest rm config method url body s).2 = [.send r] ∧
        r.Method = method ∧ r.URL = url ∧ r.Body = body := by
  unfold doRequest
  split
  · exact Or.inl (emitted_self s)
  · exact Or.inr ⟨⟨method, url, "", config.PAT, "application/json", body⟩,
      by simp [emitted, Sys.log], rfl, rfl, rfl⟩

theorem created_createBranchPolicy (rm : Remote) (config : AzureDevOpsConfig)
    (policy : BranchPolicy) (s : Sys) :
    created (emitted s (createBranchPolicy rm config policy s).2) = [policy] := by
  have key : created (emitted s (doRequest rm config "POST" (createURL config)
      (some { policy with ID := 0 }) (s.log (.create config policy))).2) = [policy] := by
    have ht : Extends (fun _ => True) s (s.log (.create config policy)) :=
      (Extends.refl _ s).log trivial
    rw [emitted_trans ht (doRequest_extends rm config _ _ _ _ (fun _ _ _ _ => trivial)),
      created_append, emitted_log (Extends.refl (fun _ => True) s), emitted_self]
    rcases doRequest_emitted rm config "POST" (createURL config) (some { policy with ID := 0 })
      (s.log (.create config policy)) with h | ⟨r, h, _⟩
    · rw [h]; rfl
    · rw [h]; rfl
  unfold createBranchPolicy
  simp only []
  split
  · next heq => rw [heq] at key; exact key
  · next heq =>
    rw [heq] at key
    split_ifs <;> exact key

theorem created_copyLoop (rm : Remote) (config : AzureDevOpsConfig) (targetBranch : String)
    (policies : List BranchPolicy) (s : Sys) :
    created (emitted s (copyLoop rm config targetBranch policies s))
      = policies.map (retarget targetBranch) := by
  induction policies generalizing s with
  | nil => simp [copyLoop, emitted_self, created]
  | cons p ps ih =>
    have h1 : Extends (fun _ => True) s
        (createBranchPolicy rm config (retarget targetBranch p) s).2 :=
      createBranchPolicy_extends rm config _ s trivial (fun _ _ _ _ => trivial)
    have hc := created_createBranchPolicy rm config (retarget targetBranch p) s
    have step : ∀ (s1 : Sys) (t : String), Extends (fun _ => True) s s1 →
        created (emitted s s1) = [retarget targetBranch p] →
        created (emitted s (copyLoop rm config targetBranch ps (s1.log (.print t))))
          = retarget targetBranch p :: ps.map (retarget targetBranch) := by
      intro s1 t hs1 hcs1
      have h2 : Extends (fun _ => True) s (s1.log (.print t)) := hs1.log trivial
      have h3 := copyLoop_extends rm config targetBranch ps (s1.log (.print t))
        (Q := fun _ => True) (fun _ _ => trivial) (fun _ _ _ _ _ _ => trivial)
        (fun _ => trivial)
      rw [emitted_trans h2 h3, created_append, ih, emitted_log hs1, created_append, hcs1]
      rfl
    unfold copyLoop
    simp only [List.map_cons]
    split
    · next heq =>
      rw [heq] at h1 hc
      exact step _ _ h1 hc
    · next heq =>
      rw [heq] at h1 hc
      exact step _ _ h1 hc

end Steps

/-! ## Replication: the claims -/

section Replication

/-- C1: every policy that replication submits (the body of each POST it sends) has its
identifier cleared, so that the `id` key is left out of the JSON object, and every one of
its scope entries names `refs/heads/<targetBranch>`; the scope entries are already rewritten
when the policy is handed to `createBranchPolicy`. This holds whatever the repository name,
the branches, the environment, the answers typed and the policies the service returns. -/
theorem submitted_cleared_and_retargeted (env : String → String) (rm : Remote)
    (repoName sourceBranch targetBranch : String) (s : Sys) :
    (∀ p ∈ submitted (emitted s
        (copyBranchPoliciesFromAzureDevOps env rm repoName sourceBranch targetBranch s).2),
      p.ID = 0 ∧ "id" ∉ p.jsonKeys ∧
        ∀ sc ∈ p.Scope, sc.RefName = "refs/heads/" ++ targetBranch) ∧
    (∀ p ∈ created (emitted s
        (copyBranchPoliciesFromAzureDevOps env rm repoName sourceBranch targetBranch s).2),
      ∀ sc ∈ p.Scope, sc.RefName = "refs/heads/" ++ targetBranch) := by
  have hscope : ∀ (q : BranchPolicy), ∀ sc ∈ (retarget targetBranch q).Scope,
      sc.RefName = "refs/heads/" ++ targetBranch := by
    intro q sc hsc
    simp only [retarget, List.mem_map] at hsc
    obtain ⟨sc0, _, rfl⟩ := hsc
    rfl
  have h := copyBranchPoliciesFromAzureDevOps_extends env rm repoName sourceBranch targetBranch s
    (Q := fun e =>
      (∀ r, e = .send r → r.Method = "POST" → ∀ p, r.Body = some p →
        p.ID = 0 ∧ "id" ∉ p.jsonKeys ∧
          ∀ sc ∈ p.Scope, sc.RefName = "refs/heads/" ++ targetBranch) ∧
      (∀ c p, e = .create c p → ∀ sc ∈ p.Scope, sc.RefName = "refs/heads/" ++ targetBranch))
    (fun _ _ => ⟨fun _ h => (nomatch h), fun _ _ h => (nomatch h)⟩)
    (fun _ => ⟨fun _ h => (nomatch h), fun _ _ h => (nomatch h)⟩)
    (fun r _ hb => ⟨fun r2 h _ p hp => by
        cases h
        rw [hb] at hp
        (cases hp), fun _ _ h => (nomatch h)⟩)
    (fun c q => ⟨fun _ h => (nomatch h), fun c2 p h => by
        cases h
        exact hscope q⟩)
    (fun q r _ hb => ⟨fun r2 h _ p hp => by
        cases h
        rw [hb] at hp
        cases hp
        exact ⟨rfl, by simp [BranchPolicy.jsonKeys], hscope q⟩, fun _ _ h => (nomatch h)⟩)
  constructor
  · intro p hp
    obtain ⟨r, hr, hm, hb⟩ := mem_submitted.mp hp
    exact (h.emitted _ hr).1 r rfl hm p hb
  · intro p hp
    obtain ⟨e, he, hpe⟩ := List.mem_filterMap.mp hp
    cases e <;> simp [Event.policy?] at hpe
    subst hpe
    exact (h.emitted _ he).2 _ _ rfl

theorem submitted_createBranchPolicy (rm : Remote) (config : AzureDevOpsConfig)
    (policy : BranchPolicy) (s : Sys)
    (hnew : rm.newRequest "POST" (createURL config) = none) :
    submitted (emitted s (createBranchPolicy rm config policy s).2)
      = [{ policy with ID := 0 }] := by
  have key : submitted (emitted s (doRequest rm config "POST" (createURL config)
      (some { policy with ID := 0 }) (s.log (.create config policy))).2)
      = [{ policy with ID := 0 }] := by
    unfold doRequest
    simp only [hnew]
    simp [emitted, Sys.log, submitted, sent, Event.request?]
  unfold createBranchPolicy
  simp only []
  split
  · next heq => rw [heq] at key; exact key
  · next heq =>
    rw [heq] at key
    split_ifs <;> exact key

theorem submitted_copyLoop (rm : Remote) (config : AzureDevOpsConfig) (targetBranch : String)
    (policies : List BranchPolicy) (s : Sys)
    (hnew : rm.newRequest "POST" (createURL config) = none) :
    submitted (emitted s (copyLoop rm config targetBranch policies s))
      = policies.map (fun q => { retarget targetBranch q with ID := 0 }) := by
  induction policies generalizing s with
  | nil => simp [copyLoop, emitted_self, submitted, sent]
  | cons p ps ih =>
    have h1 : Extends (fun _ => True) s
        (createBranchPolicy rm config (retarget targetBranch p) s).2 :=
      createBranchPolicy_extends rm config _ s trivial (fun _ _ _ _ => trivial)
    have hc := submitted_createBranchPolicy rm config (retarget targetBranch p) s hnew
    have step : ∀ (s1 : Sys) (t : String), Extends (fun _ => True) s s1 →
        submitted (emitted s s1) = [{ retarget targetBranch p with ID := 0 }] →
        submitted (emitted s (copyLoop rm config targetBranch ps (s1.log (.print t))))
          = { retarget targetBranch p with ID := 0 }
            :: ps.map (fun q => { retarget targetBranch q with ID := 0 }) := by
      intro s1 t hs1 hcs1
      have h2 : Extends (fun _ => True) s (s1.log (.print t)) := hs1.log trivial
      have h3 := copyLoop_extends rm config targetBranch ps (s1.log (.print t))
        (Q := fun _ => True) (fun _ _ => trivial) (fun _ _ _ _ _ _ => trivial)
        (fun _ => trivial)
      rw [emitted_trans h2 h3, submitted_append, ih, emitted_log hs1, submitted_append, hcs1]
      rfl
    unfold copyLoop
    simp only [List.map_cons]
    split
    · next heq =>
      rw [heq] at h1 hc
      exact step _ _ h1 hc
    · next heq =>
      rw [heq] at h1 hc
      exact step _ _ h1 hc

/-- C1 on the demonstration run: two policies are submitted, each without an `id` key and
with every scope entry naming `refs/heads/feature/x`. -/
theorem submitted_cleared_and_retargeted_witness :
    (submitted (emitted demoStart (copyBranchPoliciesFromAzureDevOps demoEnv demoRemote
        "LOM_ABC" "develop" "feature/x" demoStart).2)).map
        (fun p => (p.ID, p.jsonKeys, p.Scope.map (fun sc => sc.RefName)))
      = [(0, ["type", "settings", "isEnabled", "isBlocking", "scope"],
            ["refs/heads/feature/x"]),
          (0, ["type", "settings", "isEnabled", "isBlocking", "scope"],
            ["refs/heads/feature/x", "refs/heads/feature/x"])] ∧
    ∀ p ∈ submitted (emitted demoStart (copyBranchPoliciesFromAzureDevOps demoEnv demoRemote
        "LOM_ABC" "develop" "feature/x" demoStart).2),
      p.ID = 0 ∧ "id" ∉ p.jsonKeys ∧
        ∀ sc ∈ p.Scope, sc.RefName = "refs/heads/" ++ "feature/x" :=
  ⟨by decide, (submitted_cleared_and_retargeted demoEnv demoRemote "LOM_ABC" "develop"
    "feature/x" demoStart).1⟩

/-- In a run that fetched `sourcePolicies`, when the creation request can be built, one POST
is sent per fetched policy, in fetch order, whatever the service answers. -/
theorem submitted_all_of_fetched (env : String → String) (rm : Remote)
    (repoName sourceBranch targetBranch : String) (s s1 s2 s3 : Sys)
    (config : AzureDevOpsConfig) (repositoryID : String) (sourcePolicies : List BranchPolicy)
    (hconfig : getAzureDevOpsConfig env (s.log (.call "copyBranchPoliciesFromAzureDevOps"
      [repoName, sourceBranch, targetBranch])) = (.ok config, s1))
    (hrepo : getRepositoryID rm config repoName s1 = (.ok repositoryID, s2))
    (hfetch : getBranchPolicies rm config repositoryID sourceBranch s2
      = (.ok sourcePolicies, s3))
    (hnew : rm.newRequest "POST" (createURL config) = none) :
    submitted (emitted s
        (copyBranchPoliciesFromAzureDevOps env rm repoName sourceBranch targetBranch s).2)
      = sourcePolicies.map (fun q => { retarget targetBranch q with ID := 0 }) := by
  rw [copyBranchPoliciesFromAzureDevOps_of_fetched env rm repoName sourceBranch targetBranch
    s s1 s2 s3 config repositoryID sourcePolicies hconfig hrepo hfetch]
  have h3 : Extends (fun e => ∀ r, e = .send r → r.Method = "GET") s s3 :=
    fetched_extends env rm repoName sourceBranch targetBranch s s1 s2 s3 config repositoryID
      sourcePolicies hconfig hrepo hfetch
      (fun _ _ _ h => (nomatch h)) (fun _ _ h => (nomatch h))
      (fun r hm _ r2 h => by cases h; exact hm)
  have h3' := h3.log (e := .print (if sourcePolicies.length = 0
    then "No policies found on branch '" ++ sourceBranch ++ "'\n"
    else "Found " ++ toString sourcePolicies.length ++ " policies on branch '"
      ++ sourceBranch ++ "'\n")) (fun _ h => (nomatch h))
  have hloop := copyLoop_extends rm config targetBranch sourcePolicies
    (s3.log (.print (if sourcePolicies.length = 0
    then "No policies found on branch '" ++ sourceBranch ++ "'\n"
    else "Found " ++ toString sourcePolicies.length ++ " policies on branch '"
      ++ sourceBranch ++ "'\n"))) (Q := fun _ => True)
    (fun _ _ => trivial) (fun _ _ _ _ _ _ => trivial) (fun _ => trivial)
  have hnone : submitted (emitted s (s3.log (.print (if sourcePolicies.length = 0
    then "No policies found on branch '" ++ sourceBranch ++ "'\n"
    else "Found " ++ toString sourcePolicies.length ++ " policies on branch '"
      ++ sourceBranch ++ "'\n")))) = [] := by
    refine List.eq_nil_iff_forall_not_mem.mpr ?_
    intro p hp
    obtain ⟨r, hr, hm, _⟩ := mem_submitted.mp hp
    have := h3'.emitted _ hr r rfl
    rw [hm] at this
    exact absurd this (by decide)
  simp only []
  rw [emitted_trans (h3'.mono (fun _ _ => trivial)) hloop, submitted_append, hnone,
    submitted_copyLoop rm config targetBranch sourcePolicies _ hnew, List.nil_append]

/-- In a run that fetched `sourcePolicies`, `createBranchPolicy` is called with each of them,
retargeted, in fetch order. -/
theorem created_of_fetched (env : String → String) (rm : Remote)
    (repoName sourceBranch targetBranch : String) (s s1 s2 s3 : Sys)
    (config : AzureDevOpsConfig) (repositoryID : String) (sourcePolicies : List BranchPolicy)
    (hconfig : getAzureDevOpsConfig env (s.log (.call "copyBranchPoliciesFromAzureDevOps"
      [repoName, sourceBranch, targetBranch])) = (.ok config, s1))
    (hrepo : getRepositoryID rm config repoName s1 = (.ok repositoryID, s2))
    (hfetch : getBranchPolicies rm config repositoryID sourceBranch s2
      = (.ok sourcePolicies, s3)) :
    created (emitted s
        (copyBranchPoliciesFromAzureDevOps env rm repoName sourceBranch targetBranch s).2)
      = sourcePolicies.map (retarget targetBranch) := by
  rw [copyBranchPoliciesFromAzureDevOps_of_fetched env rm repoName sourceBranch targetBranch
    s s1 s2 s3 config repositoryID sourcePolicies hconfig hrepo hfetch]
  have h3 : Extends (fun e => ∀ c p, e ≠ .create c p) s s3 :=
    fetched_extends env rm repoName sourceBranch targetBranch s s1 s2 s3 config repositoryID
      sourcePolicies hconfig hrepo hfetch
      (fun _ _ _ _ h => nomatch h) (fun _ _ _ h => nomatch h) (fun _ _ _ _ _ h => nomatch h)
  have h3' := h3.log (e := .print (if sourcePolicies.length = 0
    then "No policies found on branch '" ++ sourceBranch ++ "'\n"
    else "Found " ++ toString sourcePolicies.length ++ " policies on branch '"
      ++ sourceBranch ++ "'\n")) (fun _ _ h => nomatch h)
  have hloop := copyLoop_extends rm config targetBranch sourcePolicies
    (s3.log (.print (if sourcePolicies.length = 0
    then "No policies found on branch '" ++ sourceBranch ++ "'\n"
    else "Found " ++ toString sourcePolicies.length ++ " policies on branch '"
      ++ sourceBranch ++ "'\n"))) (Q := fun _ => True)
    (fun _ _ => trivial) (fun _ _ _ _ _ _ => trivial) (fun _ => trivial)
  have hnone : created (emitted s (s3.log (.print (if sourcePolicies.length = 0
    then "No policies found on branch '" ++ sourceBranch ++ "'\n"
    else "Found " ++ toString sourcePolicies.length ++ " policies on branch '"
      ++ sourceBranch ++ "'\n")))) = [] := by
    refine List.filterMap_eq_nil_iff.mpr ?_
    intro e he
    have := h3'.emitted e he
    cases e <;> first | rfl | exact absurd rfl (this _ _)
  simp only []
  rw [emitted_trans (h3'.mono (fun _ _ => trivial)) hloop, created_append, hnone,
    created_copyLoop, List.nil_append]

/-- C2: when configuration, repository lookup and policy fetch succeed and the fetch returns
the policies `sourcePolicies`, replication returns `nil` and calls `createBranchPolicy`
exactly once per fetched policy, in fetch order, each time with the fetched policy retargeted,
whatever the service answers to each attempt; when the creation request can be built, each
call sends its POST, so that there is one POST per fetched policy, in fetch order. -/
theorem one_attempt_per_fetched_policy (env : String → String) (rm : Remote)
    (repoName sourceBranch targetBranch : String) (s s1 s2 s3 : Sys)
    (config : AzureDevOpsConfig) (repositoryID : String) (sourcePolicies : List BranchPolicy)
    (hconfig : getAzureDevOpsConfig env (s.log (.call "copyBranchPoliciesFromAzureDevOps"
      [repoName, sourceBranch, targetBranch])) = (.ok config, s1))
    (hrepo : getRepositoryID rm config repoName s1 = (.ok repositoryID, s2))
    (hfetch : getBranchPolicies rm config repositoryID sourceBranch s2
      = (.ok sourcePolicies, s3)) :
    (copyBranchPoliciesFromAzureDevOps env rm repoName sourceBranch targetBranch s).1 = none ∧
    created (emitted s
        (copyBranchPoliciesFromAzureDevOps env rm repoName sourceBranch targetBranch s).2)
      = sourcePolicies.map (retarget targetBranch) ∧
    (created (emitted s
        (copyBranchPoliciesFromAzureDevOps env rm repoName sourceBranch targetBranch s).2)).length
      = sourcePolicies.length ∧
    (rm.newRequest "POST" (createURL config) = none →
      submitted (emitted s
          (copyBranchPoliciesFromAzureDevOps env rm repoName sourceBranch targetBranch s).2)
        = sourcePolicies.map (fun q => { retarget targetBranch q with ID := 0 })) := by
  have hcreated := created_of_fetched env rm repoName sourceBranch targetBranch
    s s1 s2 s3 config repositoryID sourcePolicies hconfig hrepo hfetch
  refine ⟨?_, hcreated, ?_, ?_⟩
  · rw [copyBranchPoliciesFromAzureDevOps_of_fetched env rm repoName sourceBranch targetBranch
      s s1 s2 s3 config repositoryID sourcePolicies hconfig hrepo hfetch]
  · rw [hcreated, List.length_map]
  · exact submitted_all_of_fetched env rm repoName sourceBranch targetBranch
      s s1 s2 s3 config repositoryID sourcePolicies hconfig hrepo hfetch

/-- The hypotheses of C2 hold in the demonstration run, where the first of the two creation
attempts is refused: both attempts are made and the result is `nil`. -/
theorem one_attempt_per_fetched_policy_witness :
    ∃ s1 s2 s3 : Sys,
      getAzureDevOpsConfig demoEnv (demoStart.log (.call "copyBranchPoliciesFromAzureDevOps"
        ["LOM_ABC", "develop", "feature/x"])) = (.ok demoConfig, s1) ∧
      getRepositoryID demoRemote demoConfig "LOM_ABC" s1 = (.ok "r-1", s2) ∧
      getBranchPolicies demoRemote demoConfig "r-1" "develop" s2
        = (.ok [demoReviewers, demoBuild], s3) ∧
      (copyBranchPoliciesFromAzureDevOps demoEnv demoRemote "LOM_ABC" "develop" "feature/x"
        demoStart).1 = none ∧
      created (emitted demoStart (copyBranchPoliciesFromAzureDevOps demoEnv demoRemote "LOM_ABC"
        "develop" "feature/x" demoStart).2)
        = [demoReviewers, demoBuild].map (retarget "feature/x") ∧
      (created (emitted demoStart (copyBranchPoliciesFromAzureDevOps demoEnv demoRemote "LOM_ABC"
        "develop" "feature/x" demoStart).2)).length = 2 ∧
      (demoRemote.newRequest "POST" (createURL demoConfig) = none →
        submitted (emitted demoStart (copyBranchPoliciesFromAzureDevOps demoEnv demoRemote
          "LOM_ABC" "develop" "feature/x" demoStart).2)
          = [demoReviewers, demoBuild].map
              (fun q => { retarget "feature/x" q with ID := 0 })) :=
  ⟨_, _, _, rfl, rfl, rfl,
    one_attempt_per_fetched_policy demoEnv demoRemote "LOM_ABC" "develop" "feature/x" demoStart
      _ _ _ demoConfig "r-1" [demoReviewers, demoBuild] rfl rfl rfl⟩

/-- C4, as stated, fails: the policy fetched from `unscopedRemote` has an empty scope list,
and it is submitted with an empty scope list, so no entry of it names the target branch. -/
theorem submitted_scope_may_be_empty :
    submitted (emitted demoStart (copyBranchPoliciesFromAzureDevOps demoEnv unscopedRemote
      "LOM_ABC" "develop" "feature/x" demoStart).2)
      = [{ demoReviewers with ID := 0, Scope := [] }] ∧
    ¬ ∀ p ∈ submitted (emitted demoStart (copyBranchPoliciesFromAzureDevOps demoEnv
        unscopedRemote "LOM_ABC" "develop" "feature/x" demoStart).2),
      p.ID = 0 ∧ ∃ sc ∈ p.Scope, sc.RefName = "refs/heads/" ++ "feature/x" := by
  have h : submitted (emitted demoStart (copyBranchPoliciesFromAzureDevOps demoEnv unscopedRemote
      "LOM_ABC" "develop" "feature/x" demoStart).2)
      = [{ demoReviewers with ID := 0, Scope := [] }] := by
    rfl
  refine ⟨h, ?_⟩
  rw [h]
  intro hall
  obtain ⟨_, sc, hsc, _⟩ := hall _ (List.mem_singleton.mpr rfl)
  cases hsc

/-- The scope of a fetched policy once retargeted and cleared: as many entries as before,
none if there was none, and an entry naming the target branch if there was one. -/
theorem scope_of_submitted (targetBranch : String) (q : BranchPolicy) :
    ({ retarget targetBranch q with ID := 0 } : BranchPolicy).Scope.length = q.Scope.length ∧
    (q.Scope = [] → ({ retarget targetBranch q with ID := 0 } : BranchPolicy).Scope = []) ∧
    (q.Scope ≠ [] → ∃ sc ∈ ({ retarget targetBranch q with ID := 0 } : BranchPolicy).Scope,
      sc.RefName = "refs/heads/" ++ targetBranch) := by
  refine ⟨by simp [retarget], fun h => by simp [retarget, h], ?_⟩
  intro hne
  obtain ⟨sc0, rest, hsc⟩ := List.exists_cons_of_ne_nil hne
  exact ⟨{ sc0 with RefName := "refs/heads/" ++ targetBranch }, by simp [retarget, hsc], rfl⟩

/-- C4, amended: every policy submitted has its identifier cleared and is made from one of
the fetched policies, being that policy retargeted with the identifier cleared; it has as many
scope entries as the fetched policy it was made from, none when that one has none, and a
scope entry naming `refs/heads/<targetBranch>` when that one has at least one. When the
creation request can be built, the policies submitted are paired with the fetched policies
one for one, in fetch order, in this way. -/
theorem submitted_scope_names_target (env : String → String) (rm : Remote)
    (repoName sourceBranch targetBranch : String) (s s1 s2 s3 : Sys)
    (config : AzureDevOpsConfig) (repositoryID : String) (sourcePolicies : List BranchPolicy)
    (hconfig : getAzureDevOpsConfig env (s.log (.call "copyBranchPoliciesFromAzureDevOps"
      [repoName, sourceBranch, targetBranch])) = (.ok config, s1))
    (hrepo : getRepositoryID rm config repoName s1 = (.ok repositoryID, s2))
    (hfetch : getBranchPolicies rm config repositoryID sourceBranch s2
      = (.ok sourcePolicies, s3)) :
    (∀ p ∈ submitted (emitted s
        (copyBranchPoliciesFromAzureDevOps env rm repoName sourceBranch targetBranch s).2),
      p.ID = 0 ∧ ∃ q ∈ sourcePolicies, p = { retarget targetBranch q with ID := 0 } ∧
        p.Scope.length = q.Scope.length ∧
        (q.Scope = [] → p.Scope = []) ∧
        (q.Scope ≠ [] → ∃ sc ∈ p.Scope, sc.RefName = "refs/heads/" ++ targetBranch)) ∧
    (rm.newRequest "POST" (createURL config) = none →
      List.Forall₂ (fun q p => p = { retarget targetBranch q with ID := 0 } ∧ p.ID = 0 ∧
          p.Scope.length = q.Scope.length ∧
          (q.Scope = [] → p.Scope = []) ∧
          (q.Scope ≠ [] → ∃ sc ∈ p.Scope, sc.RefName = "refs/heads/" ++ targetBranch))
        sourcePolicies
        (submitted (emitted s
          (copyBranchPoliciesFromAzureDevOps env rm repoName sourceBranch targetBranch s).2))) := by
  constructor
  · intro p hp
    obtain ⟨q, hq, rfl⟩ := submitted_of_fetched env rm repoName sourceBranch targetBranch
      s s1 s2 s3 config repositoryID sourcePolicies hconfig hrepo hfetch p hp
    exact ⟨rfl, q, hq, rfl, scope_of_submitted targetBranch q⟩
  · intro hnew
    rw [submitted_all_of_fetched env rm repoName sourceBranch targetBranch
      s s1 s2 s3 config repositoryID sourcePolicies hconfig hrepo hfetch hnew,
      List.forall₂_map_right_iff]
    exact List.forall₂_same.mpr
      (fun q _ => ⟨rfl, rfl, scope_of_submitted targetBranch q⟩)

/-- The hypotheses of the amended C4 hold in the demonstration run, where both submissions
are paired with the fetched policy they were made from. -/
theorem submitted_scope_names_target_witness :
    ∃ s1 s2 s3 : Sys,
      getAzureDevOpsConfig demoEnv (demoStart.log (.call "copyBranchPoliciesFromAzureDevOps"
        ["LOM_ABC", "develop", "feature/x"])) = (.ok demoConfig, s1) ∧
      getRepositoryID demoRemote demoConfig "LOM_ABC" s1 = (.ok "r-1", s2) ∧
      getBranchPolicies demoRemote demoConfig "r-1" "develop" s2
        = (.ok [demoReviewers, demoBuild], s3) ∧
      demoRemote.newRequest "POST" (createURL demoConfig) = none ∧
      (∀ p ∈ submitted (emitted demoStart (copyBranchPoliciesFromAzureDevOps demoEnv demoRemote
          "LOM_ABC" "develop" "feature/x" demoStart).2),
        p.ID = 0 ∧ ∃ q ∈ [demoReviewers, demoBuild],
          p = { retarget "feature/x" q with ID := 0 } ∧
          p.Scope.length = q.Scope.length ∧
          (q.Scope = [] → p.Scope = []) ∧
          (q.Scope ≠ [] → ∃ sc ∈ p.Scope, sc.RefName = "refs/heads/" ++ "feature/x")) ∧
      List.Forall₂ (fun q p => p = { retarget "feature/x" q with ID := 0 } ∧ p.ID = 0 ∧
          p.Scope.length = q.Scope.length ∧
          (q.Scope = [] → p.Scope = []) ∧
          (q.Scope ≠ [] → ∃ sc ∈ p.Scope, sc.RefName = "refs/heads/" ++ "feature/x"))
        [demoReviewers, demoBuild]
        (submitted (emitted demoStart (copyBranchPoliciesFromAzureDevOps demoEnv demoRemote
          "LOM_ABC" "develop" "feature/x" demoStart).2)) :=
  ⟨_, _, _, rfl, rfl, rfl, rfl,
    (submitted_scope_names_target demoEnv demoRemote "LOM_ABC" "develop" "feature/x" demoStart
      _ _ _ demoConfig "r-1" [demoReviewers, demoBuild] rfl rfl rfl).1,
    (submitted_scope_names_target demoEnv demoRemote "LOM_ABC" "develop" "feature/x" demoStart
      _ _ _ demoConfig "r-1" [demoReviewers, demoBuild] rfl rfl rfl).2 rfl⟩

theorem sameExceptIdAndRefNames_retarget (targetBranch : String) (q : BranchPolicy) :
    SameExceptIdAndRefNames q (retarget targetBranch q) ∧
      SameExceptIdAndRefNames q { retarget targetBranch q with ID := 0 } := by
  constructor <;>
    exact ⟨rfl, rfl, rfl, rfl, rfl, by simp [retarget], by simp [retarget, Function.comp_def]⟩

/-- C5: when the configuration is complete and the repository lookup fails, replication
returns the error `failed to get repository ID: ...`, calls neither `getBranchPolicies` nor
`createBranchPolicy`, submits nothing, and every request it sent is the lookup's GET. -/
theorem lookup_failure_stops (env : String → String) (rm : Remote)
    (repoName sourceBranch targetBranch : String) (s s1 s2 : Sys)
    (config : AzureDevOpsConfig) (err : String)
    (hconfig : getAzureDevOpsConfig env (s.log (.call "copyBranchPoliciesFromAzureDevOps"
      [repoName, sourceBranch, targetBranch])) = (.ok config, s1))
    (hrepo : getRepositoryID rm config repoName s1 = (.error err, s2)) :
    (copyBranchPoliciesFromAzureDevOps env rm repoName sourceBranch targetBranch s).1
      = some ("failed to get repository ID: " ++ err) ∧
    "getBranchPolicies" ∉ calls (emitted s
      (copyBranchPoliciesFromAzureDevOps env rm repoName sourceBranch targetBranch s).2) ∧
    "createBranchPolicy" ∉ calls (emitted s
      (copyBranchPoliciesFromAzureDevOps env rm repoName sourceBranch targetBranch s).2) ∧
    submitted (emitted s
      (copyBranchPoliciesFromAzureDevOps env rm repoName sourceBranch targetBranch s).2) = [] ∧
    ∀ r ∈ sent (emitted s
        (copyBranchPoliciesFromAzureDevOps env rm repoName sourceBranch targetBranch s).2),
      r.Method = "GET" ∧ r.URL = repositoryURL config repoName := by
  have heq : copyBranchPoliciesFromAzureDevOps env rm repoName sourceBranch targetBranch s
      = (some ("failed to get repository ID: " ++ err), s2) := by
    unfold copyBranchPoliciesFromAzureDevOps
    simp only [hconfig, hrepo]
  have h1 := ((Extends.refl _ s).log (e := .call "copyBranchPoliciesFromAzureDevOps"
      [repoName, sourceBranch, targetBranch]) ?_).trans
    (getAzureDevOpsConfig_extends env _
      (Q := fun e => (e.callee? ≠ some "getBranchPolicies" ∧
        e.callee? ≠ some "createBranchPolicy") ∧
        ∀ r, e = .send r → r.Method = "GET" ∧ r.URL = repositoryURL config repoName)
      ⟨by simp [Event.callee?], fun _ h => (nomatch h)⟩
      (fun _ => ⟨by simp [Event.callee?], fun _ h => (nomatch h)⟩)
      (fun _ => ⟨by simp [Event.callee?], fun _ h => (nomatch h)⟩))
  swap
  · exact ⟨by simp [Event.callee?], fun _ h => (nomatch h)⟩
  rw [hconfig] at h1
  have h2 := h1.trans (getRepositoryID_extends rm config repoName s1
    ⟨by simp [Event.callee?], fun _ h => (nomatch h)⟩
    (fun r hm hu _ => ⟨by simp [Event.callee?], fun r2 h => by cases h; exact ⟨hm, hu⟩⟩))
  rw [hrepo] at h2
  rw [heq]
  refine ⟨rfl, ?_, ?_, ?_, ?_⟩
  · intro hmem
    obtain ⟨e, he, hfn⟩ := List.mem_filterMap.mp hmem
    exact (h2.emitted e he).1.1 hfn
  · intro hmem
    obtain ⟨e, he, hfn⟩ := List.mem_filterMap.mp hmem
    exact (h2.emitted e he).1.2 hfn
  · refine List.eq_nil_iff_forall_not_mem.mpr ?_
    intro p hp
    obtain ⟨r, hr, hm, _⟩ := mem_submitted.mp hp
    have := ((h2.emitted _ hr).2 r rfl).1
    rw [hm] at this
    exact absurd this (by decide)
  · intro r hr
    exact (h2.emitted _ (mem_sent.mp hr)).2 r rfl

/-- The hypotheses of C5 hold when the service answers the lookup with `404 Not Found`. -/
theorem lookup_failure_stops_witness :
    ∃ s1 s2 : Sys,
      getAzureDevOpsConfig demoEnv (demoStart.log (.call "copyBranchPoliciesFromAzureDevOps"
        ["LOM_ABC", "develop", "feature/x"])) = (.ok demoConfig, s1) ∧
      getRepositoryID notFoundRemote demoConfig "LOM_ABC" s1
        = (.error "failed to get repository: 404 Not Found - no such repository", s2) ∧
      (copyBranchPoliciesFromAzureDevOps demoEnv notFoundRemote "LOM_ABC" "develop" "feature/x"
        demoStart).1 = some ("failed to get repository ID: "
          ++ "failed to get repository: 404 Not Found - no such repository") ∧
      "getBranchPolicies" ∉ calls (emitted demoStart (copyBranchPoliciesFromAzureDevOps demoEnv
        notFoundRemote "LOM_ABC" "develop" "feature/x" demoStart).2) ∧
      "createBranchPolicy" ∉ calls (emitted demoStart (copyBranchPoliciesFromAzureDevOps demoEnv
        notFoundRemote "LOM_ABC" "develop" "feature/x" demoStart).2) ∧
      submitted (emitted demoStart (copyBranchPoliciesFromAzureDevOps demoEnv
        notFoundRemote "LOM_ABC" "develop" "feature/x" demoStart).2) = [] ∧
      ∀ r ∈ sent (emitted demoStart (copyBranchPoliciesFromAzureDevOps demoEnv
          notFoundRemote "LOM_ABC" "develop" "feature/x" demoStart).2),
        r.Method = "GET" ∧ r.URL = repositoryURL demoConfig "LOM_ABC" :=
  ⟨_, _, rfl, rfl,
    lookup_failure_stops demoEnv notFoundRemote "LOM_ABC" "develop" "feature/x" demoStart
      _ _ demoConfig _ rfl rfl⟩

/-- C7: in a run that fetched `sourcePolicies`, the policies handed to `createBranchPolicy`
are, one for one and in order, the fetched policies with nothing changed but the reference
names of the scope entries; and each policy submitted differs from the fetched policy it was
made from only in its identifier and those reference names: policy type, settings, the two
flags, the number and order of scope entries and their `matchKind` and `repositoryId` are
the source's. -/
theorem copy_keeps_everything_else (env : String → String) (rm : Remote)
    (repoName sourceBranch targetBranch : String) (s s1 s2 s3 : Sys)
    (config : AzureDevOpsConfig) (repositoryID : String) (sourcePolicies : List BranchPolicy)
    (hconfig : getAzureDevOpsConfig env (s.log (.call "copyBranchPoliciesFromAzureDevOps"
      [repoName, sourceBranch, targetBranch])) = (.ok config, s1))
    (hrepo : getRepositoryID rm config repoName s1 = (.ok repositoryID, s2))
    (hfetch : getBranchPolicies rm config repositoryID sourceBranch s2
      = (.ok sourcePolicies, s3)) :
    List.Forall₂ (fun source handed => SameExceptIdAndRefNames source handed ∧
        handed.ID = source.ID) sourcePolicies
      (created (emitted s
        (copyBranchPoliciesFromAzureDevOps env rm repoName sourceBranch targetBranch s).2)) ∧
    ∀ p ∈ submitted (emitted s
        (copyBranchPoliciesFromAzureDevOps env rm repoName sourceBranch targetBranch s).2),
      ∃ source ∈ sourcePolicies, p = { retarget targetBranch source with ID := 0 } ∧
        SameExceptIdAndRefNames source p := by
  constructor
  · rw [(created_of_fetched env rm repoName sourceBranch targetBranch s s1 s2 s3
      config repositoryID sourcePolicies hconfig hrepo hfetch)]
    rw [List.forall₂_map_right_iff]
    exact List.forall₂_same.mpr
      (fun q _ => ⟨(sameExceptIdAndRefNames_retarget targetBranch q).1, rfl⟩)
  · intro p hp
    obtain ⟨q, hq, rfl⟩ := submitted_of_fetched env rm repoName sourceBranch targetBranch
      s s1 s2 s3 config repositoryID sourcePolicies hconfig hrepo hfetch p hp
    exact ⟨q, hq, rfl, (sameExceptIdAndRefNames_retarget targetBranch q).2⟩

/-- The hypotheses of C7 hold in the demonstration run. -/
theorem copy_keeps_everything_else_witness :
    ∃ s1 s2 s3 : Sys,
      getAzureDevOpsConfig demoEnv (demoStart.log (.call "copyBranchPoliciesFromAzureDevOps"
        ["LOM_ABC", "develop", "feature/x"])) = (.ok demoConfig, s1) ∧
      getRepositoryID demoRemote demoConfig "LOM_ABC" s1 = (.ok "r-1", s2) ∧
      getBranchPolicies demoRemote demoConfig "r-1" "develop" s2
        = (.ok [demoReviewers, demoBuild], s3) ∧
      List.Forall₂ (fun source handed => SameExceptIdAndRefNames source handed ∧
          handed.ID = source.ID) [demoReviewers, demoBuild]
        (created (emitted demoStart (copyBranchPoliciesFromAzureDevOps demoEnv demoRemote
          "LOM_ABC" "develop" "feature/x" demoStart).2)) ∧
      ∀ p ∈ submitted (emitted demoStart (copyBranchPoliciesFromAzureDevOps demoEnv demoRemote
          "LOM_ABC" "develop" "feature/x" demoStart).2),
        ∃ source ∈ [demoReviewers, demoBuild],
          p = { retarget "feature/x" source with ID := 0 } ∧
            SameExceptIdAndRefNames source p :=
  ⟨_, _, _, rfl, rfl, rfl,
    copy_keeps_everything_else demoEnv demoRemote "LOM_ABC" "develop" "feature/x" demoStart
      _ _ _ demoConfig "r-1" [demoReviewers, demoBuild] rfl rfl rfl⟩

theorem promptIfEmpty_resolveField (value prompt : String) (s : Sys) :
    (promptIfEmpty value prompt s).1 = (resolveField value s.stdin).1 ∧
      (promptIfEmpty value prompt s).2.stdin = (resolveField value s.stdin).2 := by
  rw [promptIfEmpty_value, promptIfEmpty_stdin]
  unfold resolveField
  split_ifs <;> exact ⟨rfl, rfl⟩

theorem getAzureDevOpsConfig_value (env : String → String) (s : Sys) :
    (getAzureDevOpsConfig env s).1
      = if (resolveField (env "AZDO_ORG") s.stdin).1 = "" ∨
          (resolveField (env "AZDO_PROJECT") (resolveField (env "AZDO_ORG") s.stdin).2).1 = "" ∨
          (resolveField (env "AZDO_PAT") (resolveField (env "AZDO_PROJECT")
            (resolveField (env "AZDO_ORG") s.stdin).2).2).1 = ""
        then .error "missing required Azure DevOps configuration"
        else .ok
          { Organization := (resolveField (env "AZDO_ORG") s.stdin).1
            Project := (resolveField (env "AZDO_PROJECT")
              (resolveField (env "AZDO_ORG") s.stdin).2).1
            Repository := ""
            PAT := (resolveField (env "AZDO_PAT") (resolveField (env "AZDO_PROJECT")
              (resolveField (env "AZDO_ORG") s.stdin).2).2).1 } := by
  have e1 := promptIfEmpty_resolveField (env "AZDO_ORG") "Enter Azure DevOps Organization: "
    (s.log (.call "getAzureDevOpsConfig" []))
  have e2 := promptIfEmpty_resolveField (env "AZDO_PROJECT") "Enter Azure DevOps Project: "
    (promptIfEmpty (env "AZDO_ORG") "Enter Azure DevOps Organization: "
      (s.log (.call "getAzureDevOpsConfig" []))).2
  have e3 := promptIfEmpty_resolveField (env "AZDO_PAT") "Enter Personal Access Token (PAT): "
    (promptIfEmpty (env "AZDO_PROJECT") "Enter Azure DevOps Project: "
      (promptIfEmpty (env "AZDO_ORG") "Enter Azure DevOps Organization: "
        (s.log (.call "getAzureDevOpsConfig" []))).2).2
  rw [e2.2, e1.2] at e3
  rw [e1.2] at e2
  have hs : (s.log (.call "getAzureDevOpsConfig" [])).stdin = s.stdin := rfl
  rw [hs] at e1 e2 e3
  unfold getAzureDevOpsConfig
  simp only [e1.1, e2.1, e3.1]
  split_ifs <;> rfl

theorem trimSpace_of_all_space (line : String) (h : ∀ c ∈ line.data, isSpace c = true) :
    TrimSpace line = "" := by
  have h0 : line.data.dropWhile isSpace = [] := List.dropWhile_eq_nil_iff.mpr h
  unfold TrimSpace
  rw [h0]
  rfl

/-- C6: resolve each of organization, project and credential as the spec says, from the
environment first and from one prompt otherwise. If one of the three is then empty,
`getAzureDevOpsConfig` returns the configuration error, and replication returns that same
error having sent no request, called neither lookup nor fetch, and created nothing. If none
is empty, `getAzureDevOpsConfig` returns the configuration with exactly those three values.
An answer made of white space only is empty. -/
theorem config_complete_or_error (env : String → String) (rm : Remote)
    (repoName sourceBranch targetBranch : String) (s : Sys) :
    let organization := resolveField (env "AZDO_ORG") s.stdin
    let project := resolveField (env "AZDO_PROJECT") organization.2
    let pat := resolveField (env "AZDO_PAT") project.2
    ((organization.1 = "" ∨ project.1 = "" ∨ pat.1 = "") →
      (getAzureDevOpsConfig env s).1 = .error "missing required Azure DevOps configuration" ∧
      (copyBranchPoliciesFromAzureDevOps env rm repoName sourceBranch targetBranch s).1
        = some "missing required Azure DevOps configuration" ∧
      sent (emitted s
        (copyBranchPoliciesFromAzureDevOps env rm repoName sourceBranch targetBranch s).2) = [] ∧
      created (emitted s
        (copyBranchPoliciesFromAzureDevOps env rm repoName sourceBranch targetBranch s).2) = [] ∧
      "getRepositoryID" ∉ calls (emitted s
        (copyBranchPoliciesFromAzureDevOps env rm repoName sourceBranch targetBranch s).2) ∧
      "getBranchPolicies" ∉ calls (emitted s
        (copyBranchPoliciesFromAzureDevOps env rm repoName sourceBranch targetBranch s).2)) ∧
    ((organization.1 ≠ "" ∧ project.1 ≠ "" ∧ pat.1 ≠ "") →
      (getAzureDevOpsConfig env s).1 = .ok
        { Organization := organization.1, Project := project.1, Repository := "",
          PAT := pat.1 }) ∧
    (∀ line : String, (∀ c ∈ line.data, isSpace c = true) → TrimSpace line = "") := by
  intro organization project pat
  refine ⟨?_, ?_, trimSpace_of_all_space⟩
  · intro hempty
    have hv : ∀ s0 : Sys, s0.stdin = s.stdin → (getAzureDevOpsConfig env s0).1
        = .error "missing required Azure DevOps configuration" := by
      intro s0 hs0
      rw [getAzureDevOpsConfig_value, hs0, if_pos hempty]
    have hcfg := hv (s.log (.call "copyBranchPoliciesFromAzureDevOps"
      [repoName, sourceBranch, targetBranch])) rfl
    have hext := ((Extends.refl _ s).log (e := .call "copyBranchPoliciesFromAzureDevOps"
        [repoName, sourceBranch, targetBranch]) ?_).trans
      (getAzureDevOpsConfig_extends env _
        (Q := fun e => e.request? = none ∧ e.policy? = none ∧
          e.callee? ≠ some "getRepositoryID" ∧ e.callee? ≠ some "getBranchPolicies")
        ⟨rfl, rfl, by simp [Event.callee?], by simp [Event.callee?]⟩
        (fun _ => ⟨rfl, rfl, by simp [Event.callee?], by simp [Event.callee?]⟩)
        (fun _ => ⟨rfl, rfl, by simp [Event.callee?], by simp [Event.callee?]⟩))
    swap
    · exact ⟨rfl, rfl, by simp [Event.callee?], by simp [Event.callee?]⟩
    have heq : copyBranchPoliciesFromAzureDevOps env rm repoName sourceBranch targetBranch s
        = (some "missing required Azure DevOps configuration",
            (getAzureDevOpsConfig env (s.log (.call "copyBranchPoliciesFromAzureDevOps"
              [repoName, sourceBranch, targetBranch]))).2) := by
      unfold copyBranchPoliciesFromAzureDevOps
      simp only []
      split
      · next e s1 h =>
        rw [h] at hcfg
        cases hcfg
        rw [h]
      · next c s1 h =>
        rw [h] at hcfg
        cases hcfg
    rw [heq]
    refine ⟨hv s rfl, rfl, ?_, ?_, ?_, ?_⟩
    · exact List.filterMap_eq_nil_iff.mpr (fun e he => (hext.emitted e he).1)
    · exact List.filterMap_eq_nil_iff.mpr (fun e he => (hext.emitted e he).2.1)
    · intro hmem
      obtain ⟨e, he, hfn⟩ := List.mem_filterMap.mp hmem
      exact (hext.emitted e he).2.2.1 hfn
    · intro hmem
      obtain ⟨e, he, hfn⟩ := List.mem_filterMap.mp hmem
      exact (hext.emitted e he).2.2.2 hfn
  · rintro ⟨h1, h2, h3⟩
    rw [getAzureDevOpsConfig_value, if_neg]
    rintro (h | h | h)
    · exact h1 h
    · exact h2 h
    · exact h3 h

/-- C6 on two runs: with the credential neither set nor typed (the answer is blank) the
configuration error comes back and nothing is sent; with every variable set the configuration
carries the three values. -/
theorem config_complete_or_error_witness :
    ((getAzureDevOpsConfig orgOnlyEnv blankStart).1
        = .error "missing required Azure DevOps configuration" ∧
      (copyBranchPoliciesFromAzureDevOps orgOnlyEnv demoRemote "LOM_ABC" "develop" "feature/x"
        blankStart).1 = some "missing required Azure DevOps configuration" ∧
      sent (emitted blankStart (copyBranchPoliciesFromAzureDevOps orgOnlyEnv demoRemote
        "LOM_ABC" "develop" "feature/x" blankStart).2) = []) ∧
    (getAzureDevOpsConfig demoEnv demoStart).1 = .ok demoConfig := by
  have h1 := config_complete_or_error orgOnlyEnv demoRemote "LOM_ABC" "develop" "feature/x"
    blankStart
  have h2 := config_complete_or_error demoEnv demoRemote "LOM_ABC" "develop" "feature/x"
    demoStart
  obtain ⟨a, b, c, _⟩ := h1.1 (by decide)
  exact ⟨⟨a, b, c⟩, h2.2.1 (by decide)⟩

/-- C9, as stated, fails: with `ORG`, `PROJECT` and `ACCESS_TOKEN` set and three answers
typed, every field of the configuration is the answer typed, not the value of the variable,
and the organization prompt is printed. -/
theorem spec_named_variables_are_not_read :
    specNamedEnv "ORG" = "contoso" ∧ specNamedEnv "PROJECT" = "web" ∧
    specNamedEnv "ACCESS_TOKEN" = "s3cret" ∧
    (getAzureDevOpsConfig specNamedEnv typedStart).1
      = .ok { Organization := "fabrikam", Project := "mobile", Repository := "",
              PAT := "t0ken" } ∧
    printed (emitted typedStart (getAzureDevOpsConfig specNamedEnv typedStart).2)
      = ["Enter Azure DevOps Organization: ", "Enter Azure DevOps Project: ",
          "Enter Personal Access Token (PAT): "] ∧
    ¬ ∀ (env : String → String) (s : Sys), env "ORG" ≠ "" →
        (∀ c, (getAzureDevOpsConfig env s).1 = .ok c → c.Organization = env "ORG") ∧
        "Enter Azure DevOps Organization: "
          ∉ printed (emitted s (getAzureDevOpsConfig env s).2) := by
  have hp : printed (emitted typedStart (getAzureDevOpsConfig specNamedEnv typedStart).2)
      = ["Enter Azure DevOps Organization: ", "Enter Azure DevOps Project: ",
          "Enter Personal Access Token (PAT): "] := by decide
  refine ⟨by decide, by decide, by decide, rfl, hp, ?_⟩
  intro hall
  have h := (hall specNamedEnv typedStart (by decide)).2
  rw [hp] at h
  exact h (by decide)

/-- C9, amended: the variables read are `AZDO_ORG`, `AZDO_PROJECT` and `AZDO_PAT`. When one
of them is set to a non-empty value, the configuration returned carries that value in the
corresponding field, and the prompt for that field is not printed. -/
theorem environment_prefills_config (env : String → String) (s : Sys) :
    (env "AZDO_ORG" ≠ "" →
      (∀ c, (getAzureDevOpsConfig env s).1 = .ok c → c.Organization = env "AZDO_ORG") ∧
      "Enter Azure DevOps Organization: "
        ∉ printed (emitted s (getAzureDevOpsConfig env s).2)) ∧
    (env "AZDO_PROJECT" ≠ "" →
      (∀ c, (getAzureDevOpsConfig env s).1 = .ok c → c.Project = env "AZDO_PROJECT") ∧
      "Enter Azure DevOps Project: "
        ∉ printed (emitted s (getAzureDevOpsConfig env s).2)) ∧
    (env "AZDO_PAT" ≠ "" →
      (∀ c, (getAzureDevOpsConfig env s).1 = .ok c → c.PAT = env "AZDO_PAT") ∧
      "Enter Personal Access Token (PAT): "
        ∉ printed (emitted s (getAzureDevOpsConfig env s).2)) := by
  have hval : ∀ c, (getAzureDevOpsConfig env s).1 = .ok c →
      c.Organization = (resolveField (env "AZDO_ORG") s.stdin).1 ∧
      c.Project = (resolveField (env "AZDO_PROJECT")
        (resolveField (env "AZDO_ORG") s.stdin).2).1 ∧
      c.PAT = (resolveField (env "AZDO_PAT") (resolveField (env "AZDO_PROJECT")
        (resolveField (env "AZDO_ORG") s.stdin).2).2).1 := by
    intro c hc
    rw [getAzureDevOpsConfig_value] at hc
    split_ifs at hc
    cases hc
    exact ⟨rfl, rfl, rfl⟩
  have hset : ∀ (v : String) (answers : List String), v ≠ "" →
      (resolveField v answers).1 = v := by
    intro v answers hv
    unfold resolveField
    rw [if_neg hv]
  have hquiet : ∀ prompt : String,
      (env "AZDO_ORG" = "" → "Enter Azure DevOps Organization: " ≠ prompt) →
      (env "AZDO_PROJECT" = "" → "Enter Azure DevOps Project: " ≠ prompt) →
      (env "AZDO_PAT" = "" → "Enter Personal Access Token (PAT): " ≠ prompt) →
      prompt ∉ printed (emitted s (getAzureDevOpsConfig env s).2) := by
    intro prompt h1 h2 h3 hmem
    have hext := getAzureDevOpsConfig_extends_of_env env s
      (Q := fun e => e ≠ .print prompt) (fun h => (nomatch h)) (fun _ h => (nomatch h))
      (fun he h => h1 he (by cases h; rfl)) (fun he h => h2 he (by cases h; rfl))
      (fun he h => h3 he (by cases h; rfl))
    exact hext.emitted _ (mem_printed.mp hmem) rfl
  refine ⟨fun h => ⟨fun c hc => ?_, ?_⟩, fun h => ⟨fun c hc => ?_, ?_⟩,
    fun h => ⟨fun c hc => ?_, ?_⟩⟩
  · rw [(hval c hc).1, hset _ _ h]
  · exact hquiet _ (fun he => absurd he h) (fun _ => by decide) (fun _ => by decide)
  · rw [(hval c hc).2.1, hset _ _ h]
  · exact hquiet _ (fun _ => by decide) (fun he => absurd he h) (fun _ => by decide)
  · rw [(hval c hc).2.2, hset _ _ h]
  · exact hquiet _ (fun _ => by decide) (fun _ => by decide) (fun he => absurd he h)

/-- The amended C9 on a run with `AZDO_ORG` set and the other two typed: the organization is
the variable's value and only the other two prompts are printed. -/
theorem environment_prefills_config_witness :
    orgOnlyEnv "AZDO_ORG" ≠ "" ∧
    (getAzureDevOpsConfig orgOnlyEnv typedStart).1
      = .ok { Organization := "contoso", Project := "fabrikam", Repository := "",
              PAT := "mobile" } ∧
    (∀ c, (getAzureDevOpsConfig orgOnlyEnv typedStart).1 = .ok c →
      c.Organization = orgOnlyEnv "AZDO_ORG") ∧
    "Enter Azure DevOps Organization: "
      ∉ printed (emitted typedStart (getAzureDevOpsConfig orgOnlyEnv typedStart).2) :=
  ⟨by decide, rfl,
    ((environment_prefills_config orgOnlyEnv typedStart).1 (by decide)).1,
    ((environment_prefills_config orgOnlyEnv typedStart).1 (by decide)).2⟩

end Replication

/-! ## Unmerged branches: the claims -/

section Unmerged

variable {R : Type}

theorem mem_visitBranch (g : Git R) (repo : R) (baseBranch : String) (baseCommit : Commit)
    (acc : List String) (ref : Reference) (name : String) :
    name ∈ visitBranch g repo baseBranch baseCommit acc ref ↔
      name ∈ acc ∨ (ref.Short = name ∧
        (name ≠ baseBranch ∧ name ≠ "main" ∧ name ≠ "master") ∧
        ∃ c, g.commitObject repo ref.Hash = .ok c ∧
          g.isAncestor repo c baseCommit = .ok false ∧ c.Hash ≠ baseCommit.Hash) := by
  unfold visitBranch
  simp only []
  split_ifs with hname
  · constructor
    · exact Or.inl
    · rintro (h | ⟨rfl, hne, _⟩)
      · exact h
      · rcases hname with h | h | h
        · exact absurd h hne.1
        · exact absurd h hne.2.1
        · exact absurd h hne.2.2
  · cases hc : g.commitObject repo ref.Hash with
    | error e =>
      simp only []
      constructor
      · exact Or.inl
      · rintro (h | ⟨_, _, c, hc2, _⟩)
        · exact h
        · cases hc2
    | ok c =>
      simp only []
      cases ha : g.isAncestor repo c baseCommit with
      | error e =>
        simp only []
        constructor
        · exact Or.inl
        · rintro (h | ⟨_, _, c2, hc2, ha2, _⟩)
          · exact h
          · cases hc2
            rw [ha] at ha2
            cases ha2
      | ok anc =>
        simp only []
        split_ifs with hcond
        · rw [List.mem_append, List.mem_singleton]
          constructor
          · rintro (h | h)
            · exact Or.inl h
            · refine Or.inr ⟨h.symm, ?_, c, rfl, ?_, hcond.2⟩
              · subst h
                exact ⟨fun h => hname (Or.inl h), fun h => hname (Or.inr (Or.inl h)),
                  fun h => hname (Or.inr (Or.inr h))⟩
              · have := hcond.1
                cases anc
                · exact ha
                · simp at this
          · rintro (h | ⟨h, _⟩)
            · exact Or.inl h
            · exact Or.inr h.symm
        · constructor
          · exact Or.inl
          · rintro (h | ⟨_, _, c2, hc2, ha2, hne⟩)
            · exact h
            · cases hc2
              rw [ha] at ha2
              cases ha2
              exact absurd ⟨rfl, hne⟩ hcond

theorem mem_foldl_visitBranch (g : Git R) (repo : R) (baseBranch : String)
    (baseCommit : Commit) (refs : List Reference) (acc : List String) (name : String) :
    name ∈ refs.foldl (visitBranch g repo baseBranch baseCommit) acc ↔
      name ∈ acc ∨ ∃ ref ∈ refs, ref.Short = name ∧
        (name ≠ baseBranch ∧ name ≠ "main" ∧ name ≠ "master") ∧
        ∃ c, g.commitObject repo ref.Hash = .ok c ∧
          g.isAncestor repo c baseCommit = .ok false ∧ c.Hash ≠ baseCommit.Hash := by
  induction refs generalizing acc with
  | nil => simp
  | cons ref rest ih =>
    rw [List.foldl_cons, ih, mem_visitBranch]
    constructor
    · rintro ((h | h) | ⟨r, hr, h⟩)
      · exact Or.inl h
      · exact Or.inr ⟨ref, List.mem_cons_self _ _, h⟩
      · exact Or.inr ⟨r, List.mem_cons_of_mem _ hr, h⟩
    · rintro (h | ⟨r, hr, h⟩)
      · exact Or.inl (Or.inl h)
      · rcases List.mem_cons.mp hr with rfl | hr
        · exact Or.inl (Or.inr h)
        · exact Or.inr ⟨r, hr, h⟩

/-- What `getUnmergedBranches` lists, whatever the repository answers: every name listed is
the name of a branch other than the baseline, `main` and `master`. -/
theorem mem_getUnmergedBranches (g : Git R) (repo : R) (baseBranch name : String)
    (h : name ∈ (getUnmergedBranches g repo baseBranch).1) :
    name ≠ baseBranch ∧ name ≠ "main" ∧ name ≠ "master" := by
  unfold getUnmergedBranches at h
  split at h
  · simp at h
  · split at h
    · simp at h
    · split at h
      · simp at h
      · rcases (mem_foldl_visitBranch g repo baseBranch _ _ [] name).mp h with h | ⟨_, _, _, h, _⟩
        · simp at h
        · exact h

/-- C10: whatever the branches, the commits and the outcomes of the per-branch lookups and
ancestry checks, the list `getUnmergedBranches(repo, "develop")` returns contains none of
`develop`, `main` and `master`. -/
theorem baseline_and_trunk_never_listed (g : Git R) (repo : R) :
    "develop" ∉ (getUnmergedBranches g repo "develop").1 ∧
    "main" ∉ (getUnmergedBranches g repo "develop").1 ∧
    "master" ∉ (getUnmergedBranches g repo "develop").1 :=
  ⟨fun h => (mem_getUnmergedBranches g repo "develop" "develop" h).1 rfl,
    fun h => (mem_getUnmergedBranches g repo "develop" "main" h).2.1 rfl,
    fun h => (mem_getUnmergedBranches g repo "develop" "master" h).2.2 rfl⟩

/-- C3, as stated, fails: in `demoGit` the branch `main` is at commit 2, which is not an
ancestor of the baseline's commit 1 and differs from it, and `main` is not listed. -/
theorem diverged_main_is_not_listed :
    getUnmergedBranches demoGit () "develop" = (["feature/a"], none) ∧
    demoGit.branches () = .ok
      { refs := [{ Short := "develop", Hash := 1 }, { Short := "main", Hash := 2 },
          { Short := "feature/a", Hash := 3 }, { Short := "feature/old", Hash := 4 },
          { Short := "feature/lost", Hash := 5 }],
        err := none } ∧
    demoGit.commitObject () 2 = .ok { Hash := 2 } ∧
    demoGit.isAncestor () { Hash := 2 } { Hash := 1 } = .ok false ∧
    ¬ ("main" ∈ (getUnmergedBranches demoGit () "develop").1 ↔
        (false = false ∧ (2 : Hash) ≠ 1)) := by
  have h : getUnmergedBranches demoGit () "develop" = (["feature/a"], none) := by
    simp [getUnmergedBranches, demoGit, visitBranch]
  refine ⟨h, rfl, rfl, by simp [demoGit], ?_⟩
  rw [h]
  simp

/-- C3, amended: when the enumeration and the baseline resolution succeed, take a branch `B`
of the enumeration whose name is not the baseline's, `main` or `master`, whose commit `C` can
be read and whose ancestry check against the baseline's commit succeeds, branch names being
distinct. Then `B` is listed if and only if `C` is not an ancestor of the baseline's commit
and `C` differs from it. -/
theorem listed_iff_not_merged (g : Git R) (repo : R) (baseBranch : String)
    (branches : BranchIter) (baseRef : Reference) (baseCommit : Commit)
    (B : Reference) (C : Commit) (isAncestor : Bool)
    (hbranches : g.branches repo = .ok branches) (hiter : branches.err = none)
    (hbaseRef : g.reference repo ("refs/heads/" ++ baseBranch) = .ok baseRef)
    (hbaseCommit : g.commitObject repo baseRef.Hash = .ok baseCommit)
    (hdistinct : (branches.refs.map (fun ref => ref.Short)).Nodup)
    (hB : B ∈ branches.refs)
    (hname : B.Short ≠ baseBranch ∧ B.Short ≠ "main" ∧ B.Short ≠ "master")
    (hC : g.commitObject repo B.Hash = .ok C)
    (hanc : g.isAncestor repo C baseCommit = .ok isAncestor) :
    (getUnmergedBranches g repo baseBranch).2 = none ∧
    (B.Short ∈ (getUnmergedBranches g repo baseBranch).1 ↔
      (isAncestor = false ∧ C.Hash ≠ baseCommit.Hash)) := by
  have heq : getUnmergedBranches g repo baseBranch
      = (branches.refs.foldl (visitBranch g repo baseBranch baseCommit) [], none) := by
    unfold getUnmergedBranches
    simp only [hbranches, hbaseRef, hbaseCommit, hiter]
  rw [heq]
  refine ⟨rfl, ?_⟩
  rw [mem_foldl_visitBranch]
  constructor
  · rintro (h | ⟨ref, href, hshort, _, c, hc, ha, hne⟩)
    · simp at h
    · have : ref = B :=
        List.inj_on_of_nodup_map hdistinct href hB hshort
      subst this
      rw [hC] at hc
      cases hc
      rw [hanc] at ha
      cases ha
      exact ⟨rfl, hne⟩
  · rintro ⟨rfl, hne⟩
    exact Or.inr ⟨B, hB, rfl, hname, C, hC, hanc, hne⟩

/-- The hypotheses of the amended C3 hold in `demoGit` for `feature/a`, which is listed, and
for `feature/old`, which is merged and is not. -/
theorem listed_iff_not_merged_witness :
    ("feature/a" ∈ (getUnmergedBranches demoGit () "develop").1 ↔
      (false = false ∧ (3 : Hash) ≠ 1)) ∧
    ("feature/old" ∈ (getUnmergedBranches demoGit () "develop").1 ↔
      (true = false ∧ (4 : Hash) ≠ 1)) :=
  ⟨(listed_iff_not_merged demoGit () "develop" _ { Short := "develop", Hash := 1 }
      { Hash := 1 } { Short := "feature/a", Hash := 3 } { Hash := 3 } false
      rfl rfl rfl rfl (by decide) (by decide) (by decide) rfl (by simp [demoGit])).2,
    (listed_iff_not_merged demoGit () "develop" _ { Short := "develop", Hash := 1 }
      { Hash := 1 } { Short := "feature/old", Hash := 4 } { Hash := 4 } true
      rfl rfl rfl rfl (by decide) (by decide) (by decide) rfl (by simp [demoGit])).2⟩

end Unmerged


/-! ## The workflow: the claims -/

section Workflow

variable {R : Type}

theorem toLowerRune_eq_y (c : Char) :
    toLowerRune c = 'y' ↔ c = 'y' ∨ c = 'Y' := by
  have hc : c = Char.ofNat c.toNat := (Char.ofNat_toNat c).symm
  unfold toLowerRune
  split_ifs with h1 h2 h3 h4
  · generalize c.toNat = n at hc h1
    subst hc
    obtain ⟨ha, hb⟩ := h1
    interval_cases n <;> decide
  · generalize c.toNat = n at hc h2
    subst hc
    obtain ⟨⟨ha, hb⟩, _⟩ := h2
    interval_cases n <;> decide
  · rw [h3] at hc
    subst hc
    decide
  · rw [h4] at hc
    subst hc
    decide
  · constructor
    · exact Or.inl
    · rintro (h | h)
      · exact h
      · subst h
        exact absurd (by decide) h1

theorem toLowerRune_eq_e (c : Char) :
    toLowerRune c = 'e' ↔ c = 'e' ∨ c = 'E' := by
  have hc : c = Char.ofNat c.toNat := (Char.ofNat_toNat c).symm
  unfold toLowerRune
  split_ifs with h1 h2 h3 h4
  · generalize c.toNat = n at hc h1
    subst hc
    obtain ⟨ha, hb⟩ := h1
    interval_cases n <;> decide
  · generalize c.toNat = n at hc h2
    subst hc
    obtain ⟨⟨ha, hb⟩, _⟩ := h2
    interval_cases n <;> decide
  · rw [h3] at hc
    subst hc
    decide
  · rw [h4] at hc
    subst hc
    decide
  · constructor
    · exact Or.inl
    · rintro (h | h)
      · exact h
      · subst h
        exact absurd (by decide) h1

theorem toLowerRune_eq_s (c : Char) :
    toLowerRune c = 's' ↔ c = 's' ∨ c = 'S' := by
  have hc : c = Char.ofNat c.toNat := (Char.ofNat_toNat c).symm
  unfold toLowerRune
  split_ifs with h1 h2 h3 h4
  · generalize c.toNat = n at hc h1
    subst hc
    obtain ⟨ha, hb⟩ := h1
    interval_cases n <;> decide
  · generalize c.toNat = n at hc h2
    subst hc
    obtain ⟨⟨ha, hb⟩, _⟩ := h2
    interval_cases n <;> decide
  · rw [h3] at hc
    subst hc
    decide
  · rw [h4] at hc
    subst hc
    decide
  · constructor
    · exact Or.inl
    · rintro (h | h)
      · exact h
      · subst h
        exact absurd (by decide) h1

theorem toLower_affirmative (response : String) :
    (ToLower response == "y" || ToLower response == "yes") = true ↔
      response ∈ affirmative := by
  constructor
  · intro h
    obtain ⟨data⟩ := response
    simp only [Bool.or_eq_true, beq_iff_eq, ToLower] at h
    rcases h with h | h
    · have h2 : data.map toLowerRune = ['y'] := congrArg String.data h
      rcases data with _ | ⟨a, _ | ⟨b, tl⟩⟩ <;> simp at h2
      rcases (toLowerRune_eq_y a).mp h2 with rfl | rfl <;> decide
    · have h2 : data.map toLowerRune = ['y', 'e', 's'] := congrArg String.data h
      rcases data with _ | ⟨a, _ | ⟨b, _ | ⟨c, _ | ⟨d, tl⟩⟩⟩⟩ <;> simp at h2
      obtain ⟨ha, hb, hc⟩ := h2
      rcases (toLowerRune_eq_y a).mp ha with rfl | rfl <;>
        rcases (toLowerRune_eq_e b).mp hb with rfl | rfl <;>
          rcases (toLowerRune_eq_s c).mp hc with rfl | rfl <;> decide
  · intro h
    simp only [affirmative, List.mem_cons, List.mem_singleton, List.not_mem_nil, or_false] at h
    rcases h with rfl | rfl | rfl | rfl | rfl | rfl | rfl | rfl | rfl | rfl <;> decide

/-- What `getConfirmation` answers: `true` exactly when the line typed, white space around it
removed, is `y` or `yes` up to letter case. -/
theorem getConfirmation_value (prompt : String) (s : Sys) :
    (getConfirmation prompt s).1 = true ↔ TrimSpace (s.stdin.headD "") ∈ affirmative := by
  rw [← toLower_affirmative]
  unfold getConfirmation
  simp only []
  rw [getInput_value]
  rfl

theorem getConfirmation_extends {Q : Event → Prop} (prompt : String) (s : Sys)
    (hc : Q (.call "getConfirmation" [prompt])) (hi : Q (.call "getInput" [prompt]))
    (hp : Q (.print prompt)) :
    Extends Q s (getConfirmation prompt s).2 := by
  unfold getConfirmation
  exact ((Extends.refl Q s).log hc).trans (getInput_extends prompt _ hi hp)

theorem getConfirmation_trace (prompt : String) (s : Sys) :
    (getConfirmation prompt s).2.trace = s.trace ++
      [Event.call "getConfirmation" [prompt], Event.call "getInput" [prompt],
        Event.print prompt] := by
  unfold getConfirmation
  simp only []
  rw [getInput_trace]
  simp [Sys.log]

theorem printBranches_extends {Q : Event → Prop} (hp : ∀ t, Q (.print t))
    (unmerged : List String) (s : Sys) :
    Extends Q s
        (unmerged.foldl (fun s branch => s.log (.print ("  - " ++ branch ++ "\n"))) s) ∧
      (unmerged.foldl (fun s branch => s.log (.print ("  - " ++ branch ++ "\n"))) s).stdin
        = s.stdin := by
  induction unmerged generalizing s with
  | nil => exact ⟨Extends.refl Q s, rfl⟩
  | cons b bs ih =>
    rw [List.foldl_cons]
    exact ⟨((Extends.refl Q s).log (hp _)).trans (ih _).1, (ih _).2⟩

theorem copyBranchPolicies_extends (env : String → String) (rm : Remote)
    (repoName sourceBranch targetBranch : String) (s : Sys) :
    Extends (fun _ => True) s
      (copyBranchPolicies env rm repoName sourceBranch targetBranch s).2 := by
  unfold copyBranchPolicies
  exact ((Extends.refl _ s).log trivial).trans
    (copyBranchPoliciesFromAzureDevOps_extends env rm repoName sourceBranch targetBranch _
      (fun _ _ => trivial) (fun _ => trivial) (fun _ _ _ => trivial) (fun _ _ => trivial)
      (fun _ _ _ _ => trivial))

theorem mainFromBranchName_extends (w : World R) (repo : R) (repoName : String) (s : Sys) :
    Extends (fun _ => True) (getInput "\nEnter the new branch name: " s).2
      (mainFromBranchName w repo repoName s) := by
  unfold mainFromBranchName
  simp only []
  split_ifs
  · exact (Extends.refl _ _).log trivial
  · have h0 : Extends (fun _ => True) (getInput "\nEnter the new branch name: " s).2
        (((getInput "\nEnter the new branch name: " s).2.log
          (.print ("\nCreating new branch '"
            ++ (getInput "\nEnter the new branch name: " s).1 ++ "'...\n"))).log
          (.call "createBranch" [(getInput "\nEnter the new branch name: " s).1])) :=
      ((Extends.refl _ _).log trivial).log trivial
    split
    · exact h0.log trivial
    · have h := (h0.log (e := .print "\nCopying branch policies from develop...\n")
        trivial).trans (copyBranchPolicies_extends w.env w.remote repoName "develop"
          (getInput "\nEnter the new branch name: " s).1 _)
      split
      · exact (h.log trivial).log trivial
      · exact h.log trivial

/-- How `main` reaches the confirmation prompt when unmerged branches were found. -/
theorem main_of_unmerged (w : World R) (trace : List Event) (line1 line2 : String)
    (rest : List String) (repo repo2 : R) (unmerged : List String)
    (hname : TrimSpace line1 ≠ "") (hurl : TrimSpace line2 ≠ "")
    (hclone : cloneRepository w.git (TrimSpace line2) (TrimSpace line1) = .ok repo)
    (hswitch : switchToBranch w.git repo "develop" = (none, repo2))
    (hunmerged : getUnmergedBranches w.git repo2 "develop" = (unmerged, none))
    (hne : unmerged ≠ []) :
    ∃ sU : Sys, sU.stdin = rest ∧
      Extends (fun e => e.callee? ≠ some "createBranch" ∧
          e.callee? ≠ some "copyBranchPolicies" ∧
          e ≠ .call "getInput" ["\nEnter the new branch name: "] ∧ e.request? = none)
        ⟨line1 :: line2 :: rest, trace⟩ sU ∧
      main w ⟨line1 :: line2 :: rest, trace⟩ =
        if !(getConfirmation "\nDo you want to continue with creating a new branch? (y/n): "
            sU).1 then
          (getConfirmation "\nDo you want to continue with creating a new branch? (y/n): "
            sU).2.log (.print "Process stopped by user.\n")
        else
          mainFromBranchName w repo2 (TrimSpace line1)
            (getConfirmation "\nDo you want to continue with creating a new branch? (y/n): "
              sU).2 := by
  have hlen : unmerged.length > 0 := List.length_pos.mpr hne
  have hprints := printBranches_extends
    (Q := fun e => e.callee? ≠ some "createBranch" ∧ e.callee? ≠ some "copyBranchPolicies" ∧
      e ≠ .call "getInput" ["\nEnter the new branch name: "] ∧ e.request? = none)
    (fun _ => ⟨by simp [Event.callee?], by simp [Event.callee?], fun h => (nomatch h), rfl⟩)
    unmerged
    ⟨rest, trace ++ [Event.print "GitProcess - Azure DevOps Branch Management Tool\n"]
      ++ [Event.print "===============================================\n"]
      ++ [Event.call "getInput" ["Enter the repository name (e.g., LOM_ABC): "]]
      ++ [Event.print "Enter the repository name (e.g., LOM_ABC): "]
      ++ [Event.call "getInput" ["Enter the repository URL: "]]
      ++ [Event.print "Enter the repository URL: "]
      ++ [Event.print ("\nCloning repository '" ++ TrimSpace line1 ++ "'...\n")]
      ++ [Event.call "cloneRepository" [TrimSpace line2, TrimSpace line1]]
      ++ [Event.print "\nSwitching to develop branch...\n"]
      ++ [Event.call "switchToBranch" ["develop"]]
      ++ [Event.print "\nChecking for unmerged branches...\n"]
      ++ [Event.call "getUnmergedBranches" ["develop"]]
      ++ [Event.print "\nFound unmerged branches:\n"]⟩
  have hpre : Extends (fun e => e.callee? ≠ some "createBranch" ∧
      e.callee? ≠ some "copyBranchPolicies" ∧
      e ≠ .call "getInput" ["\nEnter the new branch name: "] ∧ e.request? = none)
      ⟨line1 :: line2 :: rest, trace⟩
      ⟨rest, trace ++ [Event.print "GitProcess - Azure DevOps Branch Management Tool\n"]
      ++ [Event.print "===============================================\n"]
      ++ [Event.call "getInput" ["Enter the repository name (e.g., LOM_ABC): "]]
      ++ [Event.print "Enter the repository name (e.g., LOM_ABC): "]
      ++ [Event.call "getInput" ["Enter the repository URL: "]]
      ++ [Event.print "Enter the repository URL: "]
      ++ [Event.print ("\nCloning repository '" ++ TrimSpace line1 ++ "'...\n")]
      ++ [Event.call "cloneRepository" [TrimSpace line2, TrimSpace line1]]
      ++ [Event.print "\nSwitching to develop branch...\n"]
      ++ [Event.call "switchToBranch" ["develop"]]
      ++ [Event.print "\nChecking for unmerged branches...\n"]
      ++ [Event.call "getUnmergedBranches" ["develop"]]
      ++ [Event.print "\nFound unmerged branches:\n"]⟩ := by
    refine ⟨[Event.print "GitProcess - Azure DevOps Branch Management Tool\n",
      Event.print "===============================================\n",
      Event.call "getInput" ["Enter the repository name (e.g., LOM_ABC): "],
      Event.print "Enter the repository name (e.g., LOM_ABC): ",
      Event.call "getInput" ["Enter the repository URL: "],
      Event.print "Enter the repository URL: ",
      Event.print ("\nCloning repository '" ++ TrimSpace line1 ++ "'...\n"),
      Event.call "cloneRepository" [TrimSpace line2, TrimSpace line1],
      Event.print "\nSwitching to develop branch...\n",
      Event.call "switchToBranch" ["develop"],
      Event.print "\nChecking for unmerged branches...\n",
      Event.call "getUnmergedBranches" ["develop"],
      Event.print "\nFound unmerged branches:\n"], by simp, ?_⟩
    intro e he
    simp only [List.mem_cons, List.mem_singleton, List.not_mem_nil, or_false] at he
    rcases he with rfl | rfl | rfl | rfl | rfl | rfl | rfl | rfl | rfl | rfl | rfl | rfl | rfl <;>
      exact ⟨by simp [Event.callee?], by simp [Event.callee?], by simp, rfl⟩
  refine ⟨_, hprints.2, hpre.trans hprints.1, ?_⟩
  · unfold main
    simp only [getInput, Sys.log, hname, hurl, hclone, hswitch, hunmerged, hlen, if_true,
      if_false]

/-- C8: take a run of `main` in which the repository name and URL are given, clone and switch
succeed and `getUnmergedBranches` returns a non-empty list. The run goes on to ask for the new
branch name if and only if the next line typed, white space around it removed, is `y` or
`yes` up to letter case, which is exactly when `getConfirmation` returns `true`. For any
other response the run ends with the confirmation prompt followed by
`Process stopped by user.`, and neither `createBranch` nor `copyBranchPolicies` is called and
no request is sent. -/
theorem confirmation_gates_the_run (w : World R) (s : Sys) (line1 line2 : String)
    (rest : List String) (repo repo2 : R) (unmerged : List String)
    (hstdin : s.stdin = line1 :: line2 :: rest)
    (hname : TrimSpace line1 ≠ "") (hurl : TrimSpace line2 ≠ "")
    (hclone : cloneRepository w.git (TrimSpace line2) (TrimSpace line1) = .ok repo)
    (hswitch : switchToBranch w.git repo "develop" = (none, repo2))
    (hunmerged : getUnmergedBranches w.git repo2 "develop" = (unmerged, none))
    (hne : unmerged ≠ []) :
    (Event.call "getInput" ["\nEnter the new branch name: "] ∈ emitted s (main w s) ↔
      TrimSpace (rest.headD "") ∈ affirmative) ∧
    (TrimSpace (rest.headD "") ∉ affirmative →
      "createBranch" ∉ calls (emitted s (main w s)) ∧
      "copyBranchPolicies" ∉ calls (emitted s (main w s)) ∧
      sent (emitted s (main w s)) = [] ∧
      [Event.call "getConfirmation"
          ["\nDo you want to continue with creating a new branch? (y/n): "],
        Event.call "getInput" ["\nDo you want to continue with creating a new branch? (y/n): "],
        Event.print "\nDo you want to continue with creating a new branch? (y/n): ",
        Event.print "Process stopped by user.\n"] <:+ emitted s (main w s)) ∧
    (∀ (prompt : String) (s0 : Sys),
      (getConfirmation prompt s0).1 = true ↔ TrimSpace (s0.stdin.headD "") ∈ affirmative) := by
  obtain ⟨stdin, trace⟩ := s
  simp only at hstdin
  subst hstdin
  obtain ⟨sU, hrest, hU, hmain⟩ := main_of_unmerged w trace line1 line2 rest repo repo2 unmerged
    hname hurl hclone hswitch hunmerged hne
  have hC := hU.trans (getConfirmation_extends
    "\nDo you want to continue with creating a new branch? (y/n): " sU
    ⟨by simp [Event.callee?], by simp [Event.callee?], by simp, rfl⟩
    ⟨by simp [Event.callee?], by simp [Event.callee?], by simp, rfl⟩
    ⟨by simp [Event.callee?], by simp [Event.callee?], by simp, rfl⟩)
  have hval := getConfirmation_value
    "\nDo you want to continue with creating a new branch? (y/n): " sU
  rw [hrest] at hval
  have hstop : TrimSpace (rest.headD "") ∉ affirmative →
      main w ⟨line1 :: line2 :: rest, trace⟩ =
        (getConfirmation "\nDo you want to continue with creating a new branch? (y/n): "
          sU).2.log (.print "Process stopped by user.\n") := by
    intro hno
    have hfalse : (getConfirmation
        "\nDo you want to continue with creating a new branch? (y/n): " sU).1 = false := by
      cases hb : (getConfirmation
        "\nDo you want to continue with creating a new branch? (y/n): " sU).1
      · rfl
      · exact absurd (hval.mp hb) hno
    rw [hmain, hfalse]
    rfl
  have hstopped : TrimSpace (rest.headD "") ∉ affirmative →
      Extends (fun e => e.callee? ≠ some "createBranch" ∧
          e.callee? ≠ some "copyBranchPolicies" ∧
          e ≠ .call "getInput" ["\nEnter the new branch name: "] ∧ e.request? = none)
        ⟨line1 :: line2 :: rest, trace⟩ (main w ⟨line1 :: line2 :: rest, trace⟩) := by
    intro hno
    rw [hstop hno]
    exact hC.log ⟨by simp [Event.callee?], by simp [Event.callee?], by simp, rfl⟩
  refine ⟨⟨?_, ?_⟩, ?_, getConfirmation_value⟩
  · intro hmem
    by_contra hno
    exact ((hstopped hno).emitted _ hmem).2.2.1 rfl
  · intro hyes
    have htrue := hval.mpr hyes
    have hgo : main w ⟨line1 :: line2 :: rest, trace⟩ = mainFromBranchName w repo2
        (TrimSpace line1) (getConfirmation
          "\nDo you want to continue with creating a new branch? (y/n): " sU).2 := by
      rw [hmain, htrue]
      rfl
    have hin : Extends (fun _ => True) ⟨line1 :: line2 :: rest, trace⟩
        (getConfirmation "\nDo you want to continue with creating a new branch? (y/n): "
          sU).2 := hC.mono (fun _ _ => trivial)
    have hask := getInput_trace "\nEnter the new branch name: " (getConfirmation
      "\nDo you want to continue with creating a new branch? (y/n): " sU).2
    have hafter := mainFromBranchName_extends w repo2 (TrimSpace line1) (getConfirmation
      "\nDo you want to continue with creating a new branch? (y/n): " sU).2
    have hget : Extends (fun _ => True) (getConfirmation
        "\nDo you want to continue with creating a new branch? (y/n): " sU).2
        (getInput "\nEnter the new branch name: " (getConfirmation
          "\nDo you want to continue with creating a new branch? (y/n): " sU).2).2 :=
      ⟨_, hask, fun _ _ => trivial⟩
    rw [hgo, emitted_trans (hin.trans hget) hafter, emitted_trans hin hget]
    have : emitted (getConfirmation
        "\nDo you want to continue with creating a new branch? (y/n): " sU).2
        (getInput "\nEnter the new branch name: " (getConfirmation
          "\nDo you want to continue with creating a new branch? (y/n): " sU).2).2
        = [Event.call "getInput" ["\nEnter the new branch name: "],
            Event.print "\nEnter the new branch name: "] := by
      simp [emitted, hask]
    rw [this]
    simp
  · intro hno
    have hext := hstopped hno
    refine ⟨?_, ?_, ?_, ?_⟩
    · intro hmem
      obtain ⟨e, he, hfn⟩ := List.mem_filterMap.mp hmem
      exact (hext.emitted e he).1 hfn
    · intro hmem
      obtain ⟨e, he, hfn⟩ := List.mem_filterMap.mp hmem
      exact (hext.emitted e he).2.1 hfn
    · exact List.filterMap_eq_nil_iff.mpr (fun e he => (hext.emitted e he).2.2.2)
    · have hUtrue : Extends (fun _ => True) ⟨line1 :: line2 :: rest, trace⟩ sU :=
        hU.mono (fun _ _ => trivial)
      have hlast : Extends (fun _ => True) sU
          ((getConfirmation "\nDo you want to continue with creating a new branch? (y/n): "
            sU).2.log (.print "Process stopped by user.\n")) :=
        (getConfirmation_extends _ sU trivial trivial trivial).log trivial
      rw [hstop hno, emitted_trans hUtrue hlast]
      refine ⟨emitted ⟨line1 :: line2 :: rest, trace⟩ sU, ?_⟩
      congr 1
      simp [emitted, Sys.log, getConfirmation_trace]

/-- C8 on a run of `demoWorld` in which the user answers ` n `: the hypotheses hold, the
branch name is not asked for and nothing is created or copied. -/
theorem confirmation_gates_the_run_witness :
    getUnmergedBranches demoWorld.git () "develop" = (["feature/a"], none) ∧
    Event.call "getInput" ["\nEnter the new branch name: "]
      ∉ emitted decliningStart (main demoWorld decliningStart) ∧
    "createBranch" ∉ calls (emitted decliningStart (main demoWorld decliningStart)) ∧
    "copyBranchPolicies" ∉ calls (emitted decliningStart (main demoWorld decliningStart)) := by
  have hu : getUnmergedBranches demoWorld.git () "develop" = (["feature/a"], none) := by
    simp [getUnmergedBranches, demoWorld, demoGit, visitBranch]
  have h := confirmation_gates_the_run demoWorld decliningStart "LOM_ABC"
    "https://dev.azure.com/contoso/web/_git/LOM_ABC" [" n "] () () ["feature/a"]
    rfl (by decide) (by decide) rfl rfl hu (by decide)
  have hno : TrimSpace ([" n "].headD "") ∉ affirmative := by decide
  exact ⟨hu, fun hmem => hno (h.1.mp hmem), (h.2.1 hno).1, (h.2.1 hno).2.1⟩

end Workflow

end GitProcess
